import Mathlib

/-!
Verification of the OutputFormatter plugin suite (ISO 26262 safety-document
generators).  Python strings are embedded as `List Char`; every Python string
primitive used by the source (split, strip, lower, substring containment,
replace, join, slicing) is defined here with Python semantics, by structural
recursion, so that every definition is executable and kernel-evaluable.
-/

namespace OutputFormatter

/-- Embedded Python string: a list of characters. -/
abbrev Str := List Char

/-- Coercion helper from Lean string literals. -/
def str (s : String) : Str := s.data

/-- Python whitespace characters (the ones `str.strip()` removes). -/
def isPySpace (c : Char) : Bool :=
  c = ' ' || c = '\t' || c = '\n' || c = '\r' || c = '\x0b' || c = '\x0c'

/-- Python `s.lstrip()` (whitespace form). -/
def pyLstrip (s : Str) : Str := s.dropWhile isPySpace

/-- Python `s.strip()`: drop whitespace from both ends. -/
def pyStrip (s : Str) : Str :=
  ((s.dropWhile isPySpace).reverse.dropWhile isPySpace).reverse

/-- Python `s.lstrip(chars)`: drop leading characters that are in `chars`. -/
def pyLstripSet (chars : Str) (s : Str) : Str :=
  s.dropWhile (fun c => c ∈ chars)

/-- Python `s.lower()` restricted to ASCII, which is all the source compares. -/
def pyLower (s : Str) : Str := s.map Char.toLower

/-- Python `needle in hay` (substring containment). -/
def containsSub (needle hay : Str) : Bool :=
  match hay with
  | [] => needle.isEmpty
  | _ :: t => needle.isPrefixOf hay || containsSub needle t

/-- Python `s.startswith(p)`. -/
def pyStartswith (p s : Str) : Bool := p.isPrefixOf s

/-- Python `s.endswith(p)`. -/
def pyEndswith (p s : Str) : Bool := p.isSuffixOf s

/-- Python `s.split(c)` for a single-character separator:
keeps empty fields, splits at every occurrence. -/
def pySplitChar (sep : Char) (s : Str) : List Str :=
  match s with
  | [] => [[]]
  | c :: t =>
    let r := pySplitChar sep t
    if c = sep then [] :: r
    else
      match r with
      | [] => [[c]]
      | h :: t' => (c :: h) :: t'

/-- Worker for `pySplitStr`; the fuel is an upper bound on the input length,
so recursion is structural and kernel-evaluable. -/
def pySplitStrGo (sep : Str) : Nat → Str → List Str
  | _, [] => [[]]
  | 0, s => [s]
  | fuel + 1, c :: t =>
    if sep.isPrefixOf (c :: t) && !sep.isEmpty then
      [] :: pySplitStrGo sep fuel (t.drop (sep.length - 1))
    else
      match pySplitStrGo sep fuel t with
      | [] => [[c]]
      | h :: t' => (c :: h) :: t'

/-- Python `s.split(sep)` for a non-empty multi-character separator
(leftmost, non-overlapping). -/
def pySplitStr (sep : Str) (s : Str) : List Str :=
  pySplitStrGo sep s.length s

/-- Python `sep.join(parts)`. -/
def pyJoin (sep : Str) : List Str → Str
  | [] => []
  | [x] => x
  | x :: xs => x ++ sep ++ pyJoin sep xs

/-- Worker for `pyReplace`; fuel-structured for kernel evaluability. -/
def pyReplaceGo (old new : Str) : Nat → Str → Str
  | _, [] => []
  | 0, s => s
  | fuel + 1, c :: t =>
    if old.isPrefixOf (c :: t) && !old.isEmpty then
      new ++ pyReplaceGo old new fuel (t.drop (old.length - 1))
    else
      c :: pyReplaceGo old new fuel t

/-- Python `s.replace(old, new)` (all leftmost non-overlapping occurrences;
`old` non-empty in every use in the source). -/
def pyReplace (old new : Str) (s : Str) : Str :=
  pyReplaceGo old new s.length s

/-- Python `s.split()[0]` on an already-stripped non-empty string:
the first whitespace-delimited token. -/
def pyFirstToken (s : Str) : Str := s.takeWhile (fun c => !isPySpace c)

/-- Python string `<` (lexicographic by code point). -/
def pyStrLt : Str → Str → Bool
  | [], [] => false
  | [], _ :: _ => true
  | _ :: _, [] => false
  | a :: as', b :: bs =>
    if a < b then true
    else if b < a then false
    else pyStrLt as' bs

/-- Insert into an ascending-sorted list (stable: equal keys keep order). -/
def insertAsc (x : Str) : List Str → List Str
  | [] => [x]
  | y :: ys => if pyStrLt x y then x :: y :: ys else y :: insertAsc x ys

/-- Python `sorted(strings)` (ascending, stable insertion sort). -/
def pySorted (l : List Str) : List Str := l.foldr insertAsc []

/-- Insert into a descending-sorted list. -/
def insertDesc (x : Str) : List Str → List Str
  | [] => [x]
  | y :: ys => if pyStrLt y x then x :: y :: ys else y :: insertDesc x ys

/-- Python `sorted(strings, reverse=True)`. -/
def pySortedRev (l : List Str) : List Str := l.foldr insertDesc []

/-- Iterated set-insert keeping first occurrences: models building a Python
`set` when only membership and size are observed. -/
def insertNew (acc : List Str) (x : Str) : List Str :=
  if x ∈ acc then acc else acc ++ [x]

/-- Decimal rendering of a natural number (for f-string interpolation). -/
def natToStr (n : Nat) : Str := (toString n).data

/-- Number of (possibly overlapping) occurrences of `needle` in `hay`. -/
def countSub (needle hay : Str) : Nat :=
  match hay with
  | [] => if needle.isEmpty then 1 else 0
  | _ :: t => (if needle.isPrefixOf hay then 1 else 0) + countSub needle t

/-- Truthiness of an optional string from `dict.get(key)`:
`None` and the empty string are falsy. -/
def truthy (o : Option Str) : Bool :=
  match o with
  | none => false
  | some s => !s.isEmpty

/-- Build a Python `set` of strings as the list of first occurrences
(only membership and size of the set are ever observed by the source). -/
def pySetOf (l : List Str) : List Str := l.foldl insertNew []

/-- Append `f` to the entry of `k` in an insertion-ordered dict of lists,
creating the entry when absent (`by_component[component].append(fsr)`). -/
def groupAdd {α : Type} (k : Str) (f : α) (acc : List (Str × List α)) :
    List (Str × List α) :=
  if (acc.map Prod.fst).contains k then
    acc.map (fun p => if p.1 = k then (p.1, p.2 ++ [f]) else p)
  else acc ++ [(k, [f])]

/-- Bump the count of `k` in an insertion-ordered dict of counters
(`d[k] = d.get(k, 0) + 1`). -/
def bumpCount (acc : List (Str × Nat)) (k : Str) : List (Str × Nat) :=
  if (acc.map Prod.fst).contains k then
    acc.map (fun p => if p.1 = k then (p.1, p.2 + 1) else p)
  else acc ++ [(k, 1)]

/-- Insert a keyed pair into an ascending-sorted association list, comparing
keys first and counts second (Python tuple order in `sorted(d.items())`). -/
def insertPairAsc (x : Str × Nat) : List (Str × Nat) → List (Str × Nat)
  | [] => [x]
  | y :: ys =>
    if pyStrLt x.1 y.1 || (x.1 = y.1 && decide (x.2 < y.2)) then x :: y :: ys
    else y :: insertPairAsc x ys

/-- Python `sorted(d.items())` for a string-keyed counter dict. -/
def pySortedPairs (l : List (Str × Nat)) : List (Str × Nat) :=
  l.foldr insertPairAsc []

/-- Insert into an association list sorted ascending by key
(`sorted(d.items())` where only the key order is ever exercised,
the keys of a dict being distinct). -/
def insertItemAsc {α : Type} (x : Str × α) : List (Str × α) → List (Str × α)
  | [] => [x]
  | y :: ys => if pyStrLt x.1 y.1 then x :: y :: ys else y :: insertItemAsc x ys

/-- Python `sorted(d.items())` for a dict with non-comparable values:
sorts by key (tuple comparison never reaches the values since keys are
distinct). -/
def pySortedItems {α : Type} (l : List (Str × α)) : List (Str × α) :=
  l.foldr insertItemAsc []

/-- The fixed severity enumeration used throughout the source:
`['D', 'C', 'B', 'A', 'QM']`. -/
def asilOrder : List Str := [str "D", str "C", str "B", str "A", str "QM"]

namespace Alloc

/-- FSR dictionary as consumed by `allocation_formatter.py`: every field
access there is a `fsr.get(key, default)`, so each key is optional. -/
structure Fsr where
  id : Option Str
  asil : Option Str
  ftype : Option Str
  allocated_to : Option Str
  allocation_type : Option Str
deriving DecidableEq, Repr

/-- The sentinel component names excluded from grouping
(`['TBD', 'NOT ALLOCATED', 'N/A']`). -/
def nonComponents : List Str := [str "TBD", str "NOT ALLOCATED", str "N/A"]

/-- Test `component and component not in ['TBD', 'NOT ALLOCATED', 'N/A']`
from `create_by_component_sheet`. -/
def isRealComponent (o : Option Str) : Bool :=
  truthy o && !(nonComponents.contains (o.getD []))

/-- The `by_component` / `unallocated` split of `create_by_component_sheet`
(lines 204-214 of `allocation_formatter.py`). -/
def byComponentSplit (fsrs : List Fsr) :
    List (Str × List Fsr) × List Fsr :=
  fsrs.foldl
    (fun acc f =>
      if isRealComponent f.allocated_to then
        (groupAdd (f.allocated_to.getD []) f acc.1, acc.2)
      else (acc.1, acc.2 ++ [f]))
    ([], [])

/-- Embeds `sorted(set(f.get('asil', 'QM') for f in comp_fsrs), reverse=True)`. -/
def asilLevelsOf (comp_fsrs : List Fsr) : List Str :=
  pySortedRev (pySetOf (comp_fsrs.map (fun f => f.asil.getD (str "QM"))))

/-- Embeds `asil_levels[0] if asil_levels else 'QM'` — the "Highest ASIL" cell of
the By Component sheet. -/
def highestAsil (comp_fsrs : List Fsr) : Str :=
  (asilLevelsOf comp_fsrs).headD (str "QM")

/-- The (component, ASIL levels, highest ASIL) triples emitted by the
By Component sheet, in row order (`sorted(by_component.items())`). -/
def byComponentRows (fsrs : List Fsr) : List (Str × List Str × Str) :=
  (pySortedItems (byComponentSplit fsrs).1).map
    (fun p => (p.1, asilLevelsOf p.2, highestAsil p.2))

/-- The "FSR IDs" cell of the By Component sheet (truncation limit 5,
lines 272-274). -/
def fsrIdsCell (comp_fsrs : List Fsr) : Str :=
  let fsr_ids := pyJoin (str ", ") ((comp_fsrs.take 5).map (fun f => f.id.getD []))
  if 5 < comp_fsrs.length then
    fsr_ids ++ str " ... (+" ++ natToStr (comp_fsrs.length - 5) ++ str " more)"
  else fsr_ids

/-- The unallocated-FSRs cell of the By Component sheet (truncation limit 10,
lines 290-292). -/
def unallocatedIdsCell (unallocated : List Fsr) : Str :=
  let unalloc_ids := pyJoin (str ", ") ((unallocated.take 10).map (fun f => f.id.getD []))
  if 10 < unallocated.length then
    unalloc_ids ++ str " ... (+" ++ natToStr (unallocated.length - 10) ++ str " more)"
  else unalloc_ids

/-- The `by_asil` grouping of `create_by_asil_sheet` (lines 322-327). -/
def byAsil (fsrs : List Fsr) : List (Str × List Fsr) :=
  fsrs.foldl (fun acc f => groupAdd (f.asil.getD (str "QM")) f acc) []

/-- The ASIL-level column of the By ASIL sheet, in emission order:
`for asil in ['D', 'C', 'B', 'A', 'QM']: if asil not in by_asil: continue`. -/
def byAsilRowKeys (fsrs : List Fsr) : List Str :=
  asilOrder.filter (fun a => ((byAsil fsrs).map Prod.fst).contains a)

/-- Entry of the freedom-from-interference per-component analysis. -/
structure CompAnalysis where
  asil_levels : List Str
  fsrs : List Fsr
  comp_type : Str
deriving DecidableEq, Repr

/-- The `component_analysis` dict of `create_freedom_interference_sheet`
(lines 419-434): skip unallocated FSRs, collect the set of ASIL levels and
the FSR list per component. -/
def componentAnalysis (fsrs : List Fsr) : List (Str × CompAnalysis) :=
  fsrs.foldl
    (fun acc f =>
      if !truthy f.allocated_to || nonComponents.contains (f.allocated_to.getD []) then
        acc
      else
        let comp := f.allocated_to.getD []
        let acc :=
          if (acc.map Prod.fst).contains comp then acc
          else acc ++ [(comp, ⟨[], [], f.allocation_type.getD (str "Unknown")⟩)]
        acc.map (fun p =>
          if p.1 = comp then
            (p.1, ⟨insertNew p.2.asil_levels (f.asil.getD (str "QM")),
                   p.2.fsrs ++ [f], p.2.comp_type⟩)
          else p))
    []

/-- The risk classification of the freedom-from-interference sheet
(lines 467-479), applied to `sorted(analysis['asil_levels'], reverse=True)`. -/
def riskOf (asil_levels : List Str) : Str :=
  if 1 < asil_levels.length then
    if asil_levels.contains (str "D") || asil_levels.contains (str "C") then
      str "HIGH"
    else str "MEDIUM"
  else str "LOW"

/-- The (component, sorted ASIL levels, risk) triples of the
freedom-from-interference sheet, in row order. -/
def freedomRows (fsrs : List Fsr) : List (Str × List Str × Str) :=
  (pySortedItems (componentAnalysis fsrs)).map
    (fun p =>
      (p.1, pySortedRev p.2.asil_levels, riskOf (pySortedRev p.2.asil_levels)))

end Alloc

namespace Fsc

/-- The parent-safety-goal field of an FSC FSR dict: either a plain string or
a list of goal ids (`isinstance(parent_sg, list)` dispatch in the source). -/
inductive ParentSG where
  | pstr (s : Str)
  | plist (l : List Str)
deriving DecidableEq, Repr

/-- FSR dictionary as consumed by the FSC generators; every key is read
with `dict.get`, so each is optional.  `ftype` embeds the `'type'` key. -/
structure Fsr where
  id : Option Str
  fsr_id : Option Str
  ftype : Option Str
  asil : Option Str
  parent_safety_goal : Option ParentSG
  parent_sg : Option ParentSG
  allocated_to : Option Str
deriving DecidableEq, Repr

/-- Safety-goal dictionary as consumed by the FSC generators. -/
structure Goal where
  sg_id : Option Str
  id : Option Str
  asil : Option Str
deriving DecidableEq, Repr

/-- Embeds `fsr.get('id', fsr.get('fsr_id', ''))`. -/
def getId (f : Fsr) : Str := f.id.getD (f.fsr_id.getD [])

/-- Embeds `fsr.get('parent_safety_goal', fsr.get('parent_sg', []))`. -/
def getParent (f : Fsr) : ParentSG :=
  f.parent_safety_goal.getD (f.parent_sg.getD (.plist []))

/-- Embeds `goal.get('sg_id', goal.get('id', ''))`. -/
def goalIdOf (g : Goal) : Str := g.sg_id.getD (g.id.getD [])

/-- Embeds `FSCExcelGenerator.validate_data` (lines 34-62 of
`fsc_excel_generator.py`): empty-input errors, then the duplicate-FSR-id
warning via `len(fsr_ids) != len(set(fsr_ids))`. -/
def excelValidateData (goals_data : List Goal) (fsrs_data : List Fsr) :
    Bool × List Str × List Str :=
  let warnings : List Str := []
  let errors : List Str := []
  let errors :=
    if goals_data.isEmpty then errors ++ [str "No safety goals available"] else errors
  let errors :=
    if fsrs_data.isEmpty then errors ++ [str "No FSRs available"] else errors
  if !errors.isEmpty then (false, warnings, errors)
  else
    let fsr_ids := fsrs_data.map getId
    let warnings :=
      if fsr_ids.length ≠ (pySetOf fsr_ids).length then
        warnings ++ [str "Duplicate FSR IDs detected"]
      else warnings
    (true, warnings, errors)

/-- The `goals_with_fsrs` set of `FSCWordGenerator.validate_data`
(lines 163-169): every id from a list-valued parent field, plus every
non-empty string-valued parent field. -/
def goalsWithFsrs (fsrs_data : List Fsr) : List Str :=
  fsrs_data.foldl
    (fun acc f =>
      match getParent f with
      | .plist l => l.foldl insertNew acc
      | .pstr s => if !s.isEmpty then insertNew acc s else acc)
    []

/-- Embeds `coverage = len(goals_with_fsrs) / len(goals_data) * 100 if goals_data
else 0` (line 171 of `fsc_word_generator.py`), as an exact rational. -/
def wordCoveragePct (goals_data : List Goal) (fsrs_data : List Fsr) : ℚ :=
  if goals_data.isEmpty then 0
  else ((goalsWithFsrs fsrs_data).length : ℚ) / (goals_data.length : ℚ) * 100

/-- Decimal rendering of a percentage for the f-string `{pct:.0f}`;
the float formatting of the source is modelled by rounding to the nearest
integer. -/
def pctStr (q : ℚ) : Str := natToStr (round q).toNat

/-- Embeds `FSCWordGenerator.validate_data` (lines 138-195): empty-input errors,
then coverage, allocation and FSR-type warnings. -/
def wordValidateData (goals_data : List Goal) (fsrs_data : List Fsr) :
    Bool × List Str × List Str :=
  let warnings : List Str := []
  let errors : List Str := []
  let errors :=
    if goals_data.isEmpty then errors ++ [str "No safety goals available"] else errors
  let errors :=
    if fsrs_data.isEmpty then errors ++ [str "No FSRs available"] else errors
  if !errors.isEmpty then (false, warnings, errors)
  else
    let gw := goalsWithFsrs fsrs_data
    let coverage := wordCoveragePct goals_data fsrs_data
    let warnings :=
      if coverage < 100 then
        warnings ++ [str "Only " ++ natToStr gw.length ++ str "/" ++
          natToStr goals_data.length ++ str " safety goals have FSRs (" ++
          pctStr coverage ++ str "%)"]
      else warnings
    let allocated := (fsrs_data.filter (fun f => truthy f.allocated_to)).length
    let warnings :=
      if allocated < fsrs_data.length then
        let alloc_pct : ℚ := (allocated : ℚ) / (fsrs_data.length : ℚ) * 100
        if alloc_pct < 50 then
          warnings ++ [str "Only " ++ natToStr allocated ++ str "/" ++
            natToStr fsrs_data.length ++ str " FSRs allocated (" ++
            pctStr alloc_pct ++ str "%)"]
        else warnings
      else warnings
    let has_detection :=
      fsrs_data.any (fun f => pyLower (f.ftype.getD []) = str "detection")
    let has_reaction :=
      fsrs_data.any (fun f => pyLower (f.ftype.getD []) = str "reaction")
    let warnings :=
      if !has_detection then warnings ++ [str "No detection requirements defined"]
      else warnings
    let warnings :=
      if !has_reaction then warnings ++ [str "No reaction requirements defined"]
      else warnings
    (true, warnings, errors)

/-- The ASIL distribution of `FSCExcelGenerator.calculate_statistics`
(lines 72-75): insertion-ordered counter keyed by `fsr.get('asil', 'QM')`. -/
def asilDistribution (fsrs_data : List Fsr) : List (Str × Nat) :=
  fsrs_data.foldl (fun acc f => bumpCount acc (f.asil.getD (str "QM"))) []

/-- The ASIL keys in the order the Statistics sheet emits them
(`for asil, count in sorted(stats['asil_distribution'].items())`,
line 332 of `fsc_excel_generator.py`). -/
def statisticsAsilKeys (fsrs_data : List Fsr) : List Str :=
  (pySortedPairs (asilDistribution fsrs_data)).map Prod.fst

/-- The "FSR IDs" cell of the FSC Allocation Matrix sheet (line 238):
`', '.join(fsr_ids[:10]) + ('...' if len(fsr_ids) > 10 else '')`. -/
def allocSheetIdsCell (fsrs : List Fsr) : Str :=
  let fsr_ids := fsrs.map getId
  pyJoin (str ", ") (fsr_ids.take 10) ++
    (if 10 < fsr_ids.length then str "..." else [])

/-- The `related_fsrs` list of the Traceability sheet (lines 274-281):
ids of the FSRs whose parent field contains/equals the goal id exactly. -/
def traceRelatedIds (goal_id : Str) (fsrs_data : List Fsr) : List Str :=
  fsrs_data.foldl
    (fun acc f =>
      match getParent f with
      | .plist l => if l.contains goal_id then acc ++ [getId f] else acc
      | .pstr s => if s = goal_id then acc ++ [getId f] else acc)
    []

/-- The "FSR IDs" cell of the Traceability sheet (line 283). -/
def traceIdsCell (related_fsrs : List Str) : Str :=
  pyJoin (str ", ") (related_fsrs.take 10) ++
    (if 10 < related_fsrs.length then str "..." else [])

end Fsc

namespace FsrXls

/-- FSR dictionary as produced by both parsers of `fsr_formatter_xls.py`;
each parser fills in every key, so the fields are total.  `ftype` embeds the
`'type'` key. -/
structure Fsr where
  id : Str
  description : Str
  allocated_to : Str
  asil : Str
  safety_goal_id : Str
  verification_criteria : Str
  ftti : Str
  ftype : Str
  operating_modes : Str
  safety_goal : Str
  safe_state : Str
  emergency_operation : Str
  functional_redundancy : Str
deriving DecidableEq, Repr

/-- Safety-goal dictionary as consumed by `parse_fsrs_markdown_format`:
`sg['id']`, `sg['description']` and `sg['asil']` are indexed directly
(required), `ftti` and `safe_state` are read with `.get`. -/
structure Goal where
  id : Str
  description : Str
  asil : Str
  ftti : Option Str
  safe_state : Option Str
deriving DecidableEq, Repr

/-- The type-code list scanned against the FSR id in the table parser
(line 324). -/
def typeCodes : List Str :=
  [str "AVD", str "DET", str "CTL", str "SST", str "TOL", str "WRN",
   str "TIM", str "ARB"]

/-- The `type_mapping` dict of `parse_fsrs` (lines 229-238), in insertion
order. -/
def typeMapping : List (Str × Str) :=
  [(str "AVD", str "Fault Avoidance"), (str "DET", str "Fault Detection"),
   (str "CTL", str "Fault Control"), (str "SST", str "Safe State Transition"),
   (str "TOL", str "Fault Tolerance"), (str "WRN", str "Warning/Indication"),
   (str "TIM", str "Timing"), (str "ARB", str "Arbitration")]

/-- Cell extraction of the table parser:
`[c for c in (cell.strip() for cell in line.split('|')) if c]`. -/
def cellsOf (line_stripped : Str) : List Str :=
  ((pySplitChar '|' line_stripped).map pyStrip).filter (fun c => !c.isEmpty)

/-- Header-row test of the table parser (line 283):
`any('fsr' in c.lower() and 'id' in c.lower() for c in cells)`. -/
def isFsrHeaderCells (cells : List Str) : Bool :=
  cells.any (fun c =>
    containsSub (str "fsr") (pyLower c) && containsSub (str "id") (pyLower c))

/-- The `header_indices` dict: column position per recognized field. -/
structure HeaderIdx where
  id : Option Nat := none
  description : Option Nat := none
  allocation : Option Nat := none
  asil : Option Nat := none
  linked_sg : Option Nat := none
  verification : Option Nat := none
  ftti : Option Nat := none
deriving DecidableEq, Repr

/-- One step of the header-mapping loop (lines 286-301). -/
def headerAssign (hi : HeaderIdx) (idxCell : Nat × Str) : HeaderIdx :=
  let cl := pyLower idxCell.2
  let idx := idxCell.1
  if containsSub (str "fsr") cl && containsSub (str "id") cl then
    { hi with id := some idx }
  else if containsSub (str "description") cl then
    { hi with description := some idx }
  else if containsSub (str "allocation") cl then
    { hi with allocation := some idx }
  else if containsSub (str "asil") cl && !containsSub (str "linked") cl then
    { hi with asil := some idx }
  else if containsSub (str "linked") cl || containsSub (str "safety goal") cl then
    { hi with linked_sg := some idx }
  else if containsSub (str "verification") cl || containsSub (str "validation") cl then
    { hi with verification := some idx }
  else if containsSub (str "ftti") cl || containsSub (str "time") cl then
    { hi with ftti := some idx }
  else hi

/-- The header-mapping loop over `enumerate(cells)`. -/
def mapHeader (cells : List Str) : HeaderIdx :=
  cells.enum.foldl headerAssign {}

/-- Embeds `cells[i] if i < len(cells) else fallback`. -/
def cellAt (cells : List Str) (i : Nat) (fallback : Str) : Str :=
  if i < cells.length then cells.getD i [] else fallback

/-- Default `'General'` overridden by the first type code appearing as `-CODE-` in
the id (table parser, lines 323-327). -/
def tableTypeOf (fsr_id : Str) : Str :=
  match typeCodes.find? (fun c => containsSub (str "-" ++ c ++ str "-") fsr_id) with
  | some c => c
  | none => str "General"

/-- The FSR dict built from a table data row (lines 307-327). -/
def mkTableFsr (hi : HeaderIdx) (cells : List Str) : Fsr :=
  let fid := cellAt cells (hi.id.getD 0) (str "Unknown")
  { id := fid
    description := cellAt cells (hi.description.getD 1) (str "N/A")
    allocated_to := cellAt cells (hi.allocation.getD 2) (str "N/A")
    asil := cellAt cells (hi.asil.getD 3) (str "N/A")
    safety_goal_id := cellAt cells (hi.linked_sg.getD 4) (str "N/A")
    verification_criteria := cellAt cells (hi.verification.getD 5) (str "N/A")
    ftti := cellAt cells (hi.ftti.getD 6) (str "N/A")
    ftype := tableTypeOf fid
    operating_modes := str "All modes"
    safety_goal := str "See Linked SG"
    safe_state := []
    emergency_operation := []
    functional_redundancy := [] }

/-- State of the table parser's line loop. -/
structure TState where
  header_found : Bool := false
  hi : HeaderIdx := {}
  fsrs : List Fsr := []
deriving Repr

/-- One iteration of the table parser's line loop (lines 264-330). -/
def tableStep (st : TState) (line : Str) : TState :=
  let line_stripped := pyStrip line
  if line_stripped.isEmpty || pyStartswith (str "|---") line_stripped ||
      pyStartswith (str "|-") line_stripped then st
  else if !containsSub (str "|") line_stripped then st
  else
    let cells := cellsOf line_stripped
    if cells.isEmpty then st
    else if !st.header_found && isFsrHeaderCells cells then
      { st with header_found := true, hi := mapHeader cells }
    else if st.header_found && containsSub (str "FSR-") (cells.headD []) then
      { st with fsrs := st.fsrs ++ [mkTableFsr st.hi cells] }
    else st

/-- Embeds `parse_fsrs_table_format` over the pre-split line list. -/
def parseFsrsTableLines (lines : List Str) : List Fsr :=
  (lines.foldl tableStep {}).fsrs

/-- Embeds `parse_fsrs_table_format(llm_response, safety_goals)` (the goal list is
unused by its body). -/
def parseFsrsTableFormat (llm_response : Str) : List Fsr :=
  parseFsrsTableLines (pySplitChar '\n' llm_response)

/-- Embeds `clean_line = line_stripped.lstrip('- ').lstrip('* ').strip()`
(markdown parser, line 409). -/
def mdCleanLine (line_stripped : Str) : Str :=
  pyStrip (pyLstripSet (str "* ") (pyLstripSet (str "- ") line_stripped))

/-- The field-pattern extraction of the markdown parser (lines 412-418):
returns `(field_name, field_value)` when the `**`/`:` pattern matches. -/
def mdFieldOf (line_stripped : Str) : Option (Str × Str) :=
  let clean_line := mdCleanLine line_stripped
  if containsSub (str "**") clean_line && containsSub (str ":") clean_line then
    let parts := pySplitStr (str "**") clean_line
    if 2 ≤ parts.length then
      let field_and_value := parts.getD 1 []
      if containsSub (str ":") field_and_value then
        let segs := pySplitChar ':' field_and_value
        some (pyLower (pyStrip (segs.headD [])), pyStrip (pyJoin (str ":") segs.tail))
      else none
    else none
  else none

/-- Whether a raw line reaches the ASIL-assignment branch of the markdown
parser (`'asil' in field_name and 'linked' not in field_name`, line 430). -/
def isAsilFieldLine (line : Str) : Bool :=
  match mdFieldOf (pyStrip line) with
  | some (field_name, _) =>
    containsSub (str "asil") field_name && !containsSub (str "linked") field_name
  | none => false

/-- Embeds `re.search(r'FSR-(\d+)', s)`: the maximal digit run after the leftmost
`FSR-` that is followed by at least one digit. -/
def reSearchFsrNum (s : Str) : Option Str :=
  match s with
  | [] => none
  | _ :: t =>
    if (str "FSR-").isPrefixOf s then
      let ds := (s.drop 4).takeWhile Char.isDigit
      if ds.isEmpty then reSearchFsrNum t else some ds
    else reSearchFsrNum t

/-- New-record marker test of the markdown parser (line 362):
`'FSR-' in line and ('**FSR-' in line or line.startswith('FSR-'))`. -/
def isFsrMarker (line_stripped : Str) : Bool :=
  containsSub (str "FSR-") line_stripped &&
    (containsSub (str "**FSR-") line_stripped ||
      pyStartswith (str "FSR-") line_stripped)

/-- Identifier extraction and normalization for a new record
(lines 367-377). -/
def mdFsrId (sg : Goal) (line_stripped : Str) : Str :=
  let fsr_id := pyStrip (pyReplace (str "*") [] (pyReplace (str "**") [] line_stripped))
  let fsr_id := if containsSub (str " ") fsr_id then pyFirstToken fsr_id else fsr_id
  if !pyStartswith (str "FSR-SG-") fsr_id then
    match reSearchFsrNum fsr_id with
    | some sg_num => pyReplace (str "FSR-" ++ sg_num) (str "FSR-" ++ sg.id) fsr_id
    | none => fsr_id
  else fsr_id

/-- Type derivation for a new markdown record (lines 380-384): the mapped
name of the first matching type code, else `'General'`. -/
def mdTypeOf (fsr_id : Str) : Str :=
  match typeMapping.find? (fun p => containsSub (str "-" ++ p.1 ++ str "-") fsr_id) with
  | some p => p.2
  | none => str "General"

/-- The fresh record created at a new-record marker (lines 386-400). -/
def mkMdFsr (sg : Goal) (fsr_id : Str) : Fsr :=
  { id := fsr_id
    safety_goal_id := sg.id
    safety_goal := sg.description
    asil := sg.asil
    ftype := mdTypeOf fsr_id
    description := []
    operating_modes := []
    allocated_to := []
    verification_criteria := []
    ftti := sg.ftti.getD []
    safe_state := sg.safe_state.getD []
    emergency_operation := []
    functional_redundancy := [] }

/-- State of the markdown parser's line loop. -/
structure MState where
  current_sg : Option Goal := none
  current_fsr : Option Fsr := none
  fsrs : List Fsr := []
  accumulating_description : Bool := false
  current_field : Option Str := none
deriving Repr

/-- Field assignment for an accumulating record (lines 420-448). -/
def mdAssignField (st : MState) (f : Fsr) (field_name field_value : Str) :
    MState :=
  let st := { st with accumulating_description := false,
                      current_field := some field_name }
  if containsSub (str "description") field_name then
    { st with current_fsr := some { f with description := field_value },
              accumulating_description := true }
  else if containsSub (str "asil") field_name &&
      !containsSub (str "linked") field_name then
    { st with current_fsr := some { f with asil := field_value } }
  else if containsSub (str "operating mode") field_name then
    { st with current_fsr := some { f with operating_modes := field_value } }
  else if containsSub (str "allocation") field_name ||
      containsSub (str "allocated") field_name then
    { st with current_fsr := some { f with allocated_to := field_value } }
  else if containsSub (str "verification") field_name ||
      containsSub (str "validation") field_name then
    { st with current_fsr := some { f with verification_criteria := field_value } }
  else if containsSub (str "ftti") field_name ||
      containsSub (str "time constraint") field_name then
    { st with current_fsr := some { f with ftti := field_value } }
  else st

/-- Safety-goal section detection (lines 354-359): the first listed goal
whose id occurs in the line becomes the current goal; otherwise the current
goal is unchanged. -/
def mdSection (safety_goals : List Goal) (st : MState) (line_stripped : Str) :
    MState :=
  if containsSub (str "## FSRs for Safety Goal:") line_stripped ||
      containsSub (str "FSRs for Safety Goal:") line_stripped then
    match safety_goals.find? (fun sg => containsSub sg.id line_stripped) with
    | some sg => { st with current_sg := some sg }
    | none => st
  else st

/-- The remainder of one iteration of the markdown parser's line loop
(lines 361-455), after section detection. -/
def mdRest (st : MState) (line_stripped : Str) : MState :=
  match st.current_sg with
  | some sg =>
    if isFsrMarker line_stripped then
      let fsrs := match st.current_fsr with
        | some f => st.fsrs ++ [f]
        | none => st.fsrs
      { st with fsrs := fsrs
                current_fsr := some (mkMdFsr sg (mdFsrId sg line_stripped))
                accumulating_description := false
                current_field := none }
    else
      match st.current_fsr with
      | some f =>
        if line_stripped.isEmpty then st
        else
          match mdFieldOf line_stripped with
          | some (field_name, field_value) =>
            mdAssignField st f field_name field_value
          | none =>
            let clean_line := mdCleanLine line_stripped
            if st.accumulating_description && !clean_line.isEmpty &&
                !pyStartswith (str "#") clean_line then
              if !f.description.isEmpty then
                let f' := { f with description := f.description ++ str " " ++ clean_line }
                { st with current_fsr := some f' }
              else st
            else st
      | none => st
  | none => st

/-- One iteration of the markdown parser's line loop (lines 350-455). -/
def mdStep (safety_goals : List Goal) (st : MState) (line : Str) : MState :=
  mdRest (mdSection safety_goals st (pyStrip line)) (pyStrip line)

/-- Embeds `parse_fsrs_markdown_format` over the pre-split line list, including the
final flush of the accumulating record (lines 457-459). -/
def parseFsrsMarkdownLines (safety_goals : List Goal) (lines : List Str) :
    List Fsr :=
  let st := lines.foldl (mdStep safety_goals) {}
  match st.current_fsr with
  | some f => st.fsrs ++ [f]
  | none => st.fsrs

/-- Embeds `parse_fsrs_markdown_format(llm_response, safety_goals, type_mapping)`. -/
def parseFsrsMarkdownFormat (llm_response : Str) (safety_goals : List Goal) :
    List Fsr :=
  parseFsrsMarkdownLines safety_goals (pySplitChar '\n' llm_response)

/-- The per-ASIL counters of `create_summary_sheet` (lines 78-81), keyed by
`fsr.get('asil', 'Unknown')`. -/
def summaryAsilCounts (fsrs : List Fsr) : List (Str × Nat) :=
  fsrs.foldl (fun acc f => bumpCount acc f.asil) []

/-- The ASIL labels in the order the summary sheet emits them (lines 83-88):
`for asil in ['D', 'C', 'B', 'A', 'QM']: if asil in asil_counts`. -/
def summaryAsilKeys (fsrs : List Fsr) : List Str :=
  asilOrder.filter (fun a => ((summaryAsilCounts fsrs).map Prod.fst).contains a)

end FsrXls

namespace Hara

/-- One parsed HARA row (`parse_hara_table`, lines 62-75). -/
structure Entry where
  hazard_id : Str
  function : Str
  malfunction : Str
  hazard : Str
  situation : Str
  severity : Str
  exposure : Str
  controllability : Str
  asil : Str
  safety_goal : Str
  safe_state : Str
  ftti : Str
deriving DecidableEq, Repr

/-- State of the HARA table parser's line loop. -/
structure HState where
  in_table : Bool := false
  headers : List Str := []
  entries : List Entry := []
deriving Repr

/-- The entry built from a data row with at least 10 cells. -/
def mkEntry (cells : List Str) : Entry :=
  { hazard_id := cells.getD 0 []
    function := cells.getD 1 []
    malfunction := cells.getD 2 []
    hazard := cells.getD 3 []
    situation := cells.getD 4 []
    severity := cells.getD 5 []
    exposure := cells.getD 6 []
    controllability := cells.getD 7 []
    asil := cells.getD 8 []
    safety_goal := cells.getD 9 []
    safe_state := if 10 < cells.length then cells.getD 10 [] else str "N/A"
    ftti := if 11 < cells.length then cells.getD 11 [] else str "N/A" }

/-- Separator test followed by the data-row branch (lines 55-76). -/
def sepOrData (st : HState) (cells : List Str) : HState :=
  if (cells.take 3).all (fun cell => containsSub (str "-") cell) then st
  else if st.in_table && 10 ≤ cells.length then
    { st with entries := st.entries ++ [mkEntry cells] }
  else st

/-- One iteration of `parse_hara_table`'s line loop (lines 36-76). -/
def haraStep (st : HState) (line0 : Str) : HState :=
  let line := pyStrip line0
  if !pyStartswith (str "|") line then st
  else
    let cells := (((pySplitChar '|' line).drop 1).dropLast).map pyStrip
    if cells.isEmpty then st
    else
      let c0 := cells.headD []
      if containsSub (str "Hazard ID") c0 || containsSub (str "ID") c0 ||
          containsSub (str "HAZ-") c0 then
        if containsSub (str "Hazard ID") c0 || containsSub (str "ID") c0 then
          { st with headers := cells, in_table := true }
        else sepOrData st cells
      else sepOrData st cells

/-- Embeds `parse_hara_table` over the pre-split line list. -/
def parseHaraTableLines (lines : List Str) : List Entry :=
  (lines.foldl haraStep {}).entries

/-- Embeds `parse_hara_table(content)`. -/
def parseHaraTable (content : Str) : List Entry :=
  parseHaraTableLines (pySplitChar '\n' content)

/-- Whether a line is recognized as a HARA header row (the branch that sets
`in_table`, lines 48-53). -/
def isHaraHeaderLine (line0 : Str) : Bool :=
  let line := pyStrip line0
  if !pyStartswith (str "|") line then false
  else
    let cells := (((pySplitChar '|' line).drop 1).dropLast).map pyStrip
    if cells.isEmpty then false
    else
      let c0 := cells.headD []
      (containsSub (str "Hazard ID") c0 || containsSub (str "ID") c0 ||
        containsSub (str "HAZ-") c0) &&
      (containsSub (str "Hazard ID") c0 || containsSub (str "ID") c0)

end Hara

/-! ### Basic lemmas about the Python-string helpers -/

theorem mem_insertNew {acc : List Str} {x a : Str} :
    a ∈ insertNew acc x ↔ a ∈ acc ∨ a = x := by
  unfold insertNew
  split
  · rename_i h
    constructor
    · exact Or.inl
    · rintro (h' | rfl)
      · exact h'
      · exact h
  · simp

theorem insertNew_ne_nil {acc : List Str} {x : Str} : insertNew acc x ≠ [] := by
  unfold insertNew
  split
  · rename_i h
    intro hn
    subst hn
    simp at h
  · simp

theorem insertNew_nodup {acc : List Str} {x : Str} (h : acc.Nodup) :
    (insertNew acc x).Nodup := by
  unfold insertNew
  split
  · exact h
  · rename_i hx
    simp [List.nodup_append, h, hx]

theorem foldl_insertNew_mem {l : List Str} {acc : List Str} {a : Str} :
    a ∈ l.foldl insertNew acc ↔ a ∈ acc ∨ a ∈ l := by
  induction l generalizing acc with
  | nil => simp
  | cons x t ih =>
    simp only [List.foldl_cons, ih, mem_insertNew, List.mem_cons]
    tauto

theorem foldl_insertNew_nodup {l : List Str} {acc : List Str} (h : acc.Nodup) :
    (l.foldl insertNew acc).Nodup := by
  induction l generalizing acc with
  | nil => exact h
  | cons x t ih => exact ih (insertNew_nodup h)

theorem pySetOf_mem {l : List Str} {a : Str} : a ∈ pySetOf l ↔ a ∈ l := by
  unfold pySetOf
  simp [foldl_insertNew_mem]

theorem pySetOf_nodup (l : List Str) : (pySetOf l).Nodup :=
  foldl_insertNew_nodup List.nodup_nil

theorem pySetOf_length (l : List Str) : (pySetOf l).length = l.dedup.length := by
  have hperm : List.Perm (pySetOf l) l.dedup := by
    rw [List.perm_ext_iff_of_nodup (pySetOf_nodup l) l.nodup_dedup]
    intro a
    rw [pySetOf_mem, List.mem_dedup]
  exact hperm.length_eq

theorem pySetOf_length_ne_of_not_nodup {l : List Str} (h : ¬ l.Nodup) :
    (pySetOf l).length ≠ l.length := by
  rw [pySetOf_length]
  intro hlen
  have heq : l.dedup = l := l.dedup_sublist.eq_of_length hlen
  exact h (heq ▸ l.nodup_dedup)

theorem mem_insertDesc {l : List Str} {x a : Str} :
    a ∈ insertDesc x l ↔ a = x ∨ a ∈ l := by
  induction l with
  | nil => simp [insertDesc]
  | cons y ys ih =>
    unfold insertDesc
    split
    · simp
    · simp only [List.mem_cons, ih]
      tauto

theorem length_insertDesc (x : Str) (l : List Str) :
    (insertDesc x l).length = l.length + 1 := by
  induction l with
  | nil => rfl
  | cons y ys ih =>
    unfold insertDesc
    split
    · simp
    · simp [ih]

theorem mem_pySortedRev {l : List Str} {a : Str} :
    a ∈ pySortedRev l ↔ a ∈ l := by
  unfold pySortedRev
  induction l with
  | nil => simp
  | cons x t ih =>
    simp only [List.foldr_cons, mem_insertDesc, List.mem_cons, ih]

theorem length_pySortedRev (l : List Str) :
    (pySortedRev l).length = l.length := by
  unfold pySortedRev
  induction l with
  | nil => rfl
  | cons x t ih => simp [length_insertDesc, ih]

theorem mem_insertItemAsc {α : Type} {l : List (Str × α)} {x a : Str × α} :
    a ∈ insertItemAsc x l ↔ a = x ∨ a ∈ l := by
  induction l with
  | nil => simp [insertItemAsc]
  | cons y ys ih =>
    unfold insertItemAsc
    split
    · simp
    · simp only [List.mem_cons, ih]
      tauto

theorem mem_pySortedItems {α : Type} {l : List (Str × α)} {a : Str × α} :
    a ∈ pySortedItems l ↔ a ∈ l := by
  unfold pySortedItems
  induction l with
  | nil => simp
  | cons x t ih =>
    simp only [List.foldr_cons, mem_insertItemAsc, List.mem_cons, ih]

theorem contains_true_iff {l : List Str} {a : Str} :
    l.contains a = true ↔ a ∈ l := by
  simp [List.contains]

/-! ### C2: highest ASIL per component -/

/-- Rank of an ASIL value under the ordering D > C > B > A > QM stated by
the specification (claim side, for comparison with the source). -/
def asilRank (a : Str) : Nat :=
  if a = str "D" then 4
  else if a = str "C" then 3
  else if a = str "B" then 2
  else if a = str "A" then 1
  else 0

/-- The maximum of a list of ASIL values under the specification's ordering
D > C > B > A > QM, defaulting to QM (claim side). -/
def claimHighestAsil (asils : List Str) : Str :=
  asils.foldl (fun best a => if asilRank best < asilRank a then a else best)
    (str "QM")

/-- A component holding one ASIL-D FSR and one QM FSR. -/
def c2fsrs : List Alloc.Fsr :=
  [{ id := some (str "FSR-1"), asil := some (str "D"), ftype := none,
     allocated_to := some (str "ECU"), allocation_type := none },
   { id := some (str "FSR-2"), asil := some (str "QM"), ftype := none,
     allocated_to := some (str "ECU"), allocation_type := none }]

/-- C2: the By Component sheet reports the "Highest ASIL" of a component by
taking the head of `sorted(set(...), reverse=True)`, a reverse lexicographic
string sort under which `'QM' > 'D'`; for a component holding FSRs of ASIL
D and QM it therefore reports QM, while the maximum under the specification's
ordering D > C > B > A > QM is D. -/
theorem c2_highest_asil_lexicographic_bug :
    Alloc.byComponentRows c2fsrs =
      [(str "ECU", [str "QM", str "D"], str "QM")] ∧
    claimHighestAsil [str "D", str "QM"] = str "D" ∧
    Alloc.highestAsil c2fsrs = str "QM" := by decide

/-! ### C3: freedom-from-interference risk tier -/

theorem componentAnalysis_step_levels_ne_nil
    (fsrs : List Alloc.Fsr) (acc : List (Str × Alloc.CompAnalysis))
    (hacc : ∀ p ∈ acc, p.2.asil_levels ≠ []) :
    ∀ p ∈ fsrs.foldl
      (fun acc f =>
        if !truthy f.allocated_to ||
            Alloc.nonComponents.contains (f.allocated_to.getD []) then acc
        else
          let comp := f.allocated_to.getD []
          let acc :=
            if (acc.map Prod.fst).contains comp then acc
            else acc ++ [(comp, ⟨[], [], f.allocation_type.getD (str "Unknown")⟩)]
          acc.map (fun p =>
            if p.1 = comp then
              (p.1, ⟨insertNew p.2.asil_levels (f.asil.getD (str "QM")),
                     p.2.fsrs ++ [f], p.2.comp_type⟩)
            else p))
      acc, p.2.asil_levels ≠ [] := by
  induction fsrs generalizing acc with
  | nil => exact hacc
  | cons f t ih =>
    simp only [List.foldl_cons]
    apply ih
    intro p hp
    split at hp
    · exact hacc p hp
    · rcases List.mem_map.mp hp with ⟨q, hq, rfl⟩
      by_cases hqc : q.1 = f.allocated_to.getD []
      · simp only [hqc, if_pos rfl]
        exact insertNew_ne_nil
      · simp only [if_neg hqc]
        split at hq
        · exact hacc q hq
        · rcases List.mem_append.mp hq with h' | h'
          · exact hacc q h'
          · exfalso
            simp only [List.mem_singleton] at h'
            exact hqc (by rw [h'])

theorem componentAnalysis_levels_ne_nil (fsrs : List Alloc.Fsr) :
    ∀ p ∈ Alloc.componentAnalysis fsrs, p.2.asil_levels ≠ [] := by
  intro p hp
  exact componentAnalysis_step_levels_ne_nil fsrs [] (by simp) p hp

/-- C3: in the Freedom From Interference sheet, a component's risk is HIGH
iff it holds at least two distinct ASIL levels one of which is C or D,
MEDIUM iff it holds at least two distinct levels none of which is C or D,
and LOW iff it holds exactly one distinct level (whichever it is). -/
theorem c3_risk_tier (fsrs : List Alloc.Fsr) (comp : Str)
    (levels : List Str) (risk : Str)
    (h : (comp, levels, risk) ∈ Alloc.freedomRows fsrs) :
    (risk = str "HIGH" ↔
      2 ≤ levels.length ∧ (str "C" ∈ levels ∨ str "D" ∈ levels)) ∧
    (risk = str "MEDIUM" ↔
      2 ≤ levels.length ∧ ¬(str "C" ∈ levels ∨ str "D" ∈ levels)) ∧
    (risk = str "LOW" ↔ levels.length = 1) := by
  unfold Alloc.freedomRows at h
  rcases List.mem_map.mp h with ⟨p, hp, heq⟩
  injection heq with h1 h23
  injection h23 with h2 h3
  subst h1 h2 h3
  have hmem := componentAnalysis_levels_ne_nil fsrs p (mem_pySortedItems.mp hp)
  have hlen1 : 1 ≤ (pySortedRev p.2.asil_levels).length := by
    rw [length_pySortedRev]
    exact List.length_pos.mpr hmem
  set levels := pySortedRev p.2.asil_levels with hlv
  unfold Alloc.riskOf
  by_cases h2 : 1 < levels.length
  · rw [if_pos h2]
    by_cases hcd : (levels.contains (str "D") || levels.contains (str "C")) = true
    · rw [if_pos hcd]
      simp only [Bool.or_eq_true, contains_true_iff] at hcd
      have hmemcd : str "C" ∈ levels ∨ str "D" ∈ levels := hcd.symm
      refine ⟨⟨fun _ => ⟨h2, hmemcd⟩, fun _ => rfl⟩, ?_, ?_⟩
      · constructor
        · intro hx; exact absurd hx (by decide)
        · rintro ⟨-, hno⟩; exact absurd hmemcd hno
      · constructor
        · intro hx; exact absurd hx (by decide)
        · intro h1; omega
    · rw [if_neg hcd]
      simp only [Bool.or_eq_true, contains_true_iff, not_or] at hcd
      have hnocd : ¬(str "C" ∈ levels ∨ str "D" ∈ levels) := by
        rintro (h' | h')
        · exact hcd.2 h'
        · exact hcd.1 h'
      refine ⟨?_, ⟨fun _ => ⟨h2, hnocd⟩, fun _ => rfl⟩, ?_⟩
      · constructor
        · intro hx; exact absurd hx (by decide)
        · rintro ⟨-, hyes⟩; exact absurd hyes hnocd
      · constructor
        · intro hx; exact absurd hx (by decide)
        · intro h1; omega
  · rw [if_neg h2]
    have h1 : levels.length = 1 := by omega
    refine ⟨?_, ?_, ⟨fun _ => h1, fun _ => rfl⟩⟩
    · constructor
      · intro hx; exact absurd hx (by decide)
      · rintro ⟨hge, -⟩; omega
    · constructor
      · intro hx; exact absurd hx (by decide)
      · rintro ⟨hge, -⟩; omega

/-- A component with FSRs of ASIL B and C. -/
def c3fsrs : List Alloc.Fsr :=
  [{ id := some (str "FSR-1"), asil := some (str "B"), ftype := none,
     allocated_to := some (str "ECU"), allocation_type := none },
   { id := some (str "FSR-2"), asil := some (str "C"), ftype := none,
     allocated_to := some (str "ECU"), allocation_type := none }]

/-- Witness for C3 at a component holding ASIL levels {B, C}. -/
theorem c3_risk_tier_witness :
    (str "HIGH" = str "HIGH" ↔
      2 ≤ ([str "C", str "B"] : List Str).length ∧
        (str "C" ∈ ([str "C", str "B"] : List Str) ∨
          str "D" ∈ ([str "C", str "B"] : List Str))) ∧
    (str "HIGH" = str "MEDIUM" ↔
      2 ≤ ([str "C", str "B"] : List Str).length ∧
        ¬(str "C" ∈ ([str "C", str "B"] : List Str) ∨
          str "D" ∈ ([str "C", str "B"] : List Str))) ∧
    (str "HIGH" = str "LOW" ↔ ([str "C", str "B"] : List Str).length = 1) :=
  c3_risk_tier c3fsrs (str "ECU") [str "C", str "B"] (str "HIGH") (by decide)

/-! ### C7: truncation of grouped-identifier cells -/

/-- Eleven FSC FSRs with distinct single-letter ids. -/
def c7fsrs : List Fsc.Fsr :=
  [str "a", str "b", str "c", str "d", str "e", str "f", str "g", str "h",
   str "i", str "j", str "k"].map
    (fun s =>
      { id := some s, fsr_id := none, ftype := none, asil := none,
        parent_safety_goal := none, parent_sg := none, allocated_to := none })

/-- C7 counterexample: the FSC allocation-matrix cell for a group of 11 ids
appends a bare `"..."`, not the `" ... (+1 more)"` suffix the claim states;
the traceability cell behaves the same. -/
theorem c7_counterexample_fsc_cells :
    c7fsrs.length = 11 ∧
    pyEndswith (str " ... (+1 more)") (Fsc.allocSheetIdsCell c7fsrs) = false ∧
    pyEndswith (str "...") (Fsc.allocSheetIdsCell c7fsrs) = true ∧
    pyEndswith (str " ... (+1 more)")
      (Fsc.traceIdsCell (c7fsrs.map Fsc.getId)) = false ∧
    Fsc.allocSheetIdsCell c7fsrs =
      str "a, b, c, d, e, f, g, h, i, j..." := by decide

/-- C7 amended: the by-component cell (limit 5) and the unallocated cell
(limit 10) of the allocation formatter render exactly `limit` identifiers
followed by `" ... (+{N-limit} more)"` when over the limit and all
identifiers with no suffix otherwise; the FSC allocation-matrix and
traceability cells (limit 10) instead append a bare `"..."` with no count. -/
theorem c7_truncation_amended (cf uf : List Alloc.Fsr) (gf : List Fsc.Fsr)
    (rel : List Str) :
    (5 < cf.length →
      Alloc.fsrIdsCell cf =
        pyJoin (str ", ") ((cf.take 5).map (fun f => f.id.getD [])) ++
          str " ... (+" ++ natToStr (cf.length - 5) ++ str " more)" ∧
      ((cf.take 5).map (fun f => f.id.getD [])).length = 5) ∧
    (cf.length ≤ 5 →
      Alloc.fsrIdsCell cf = pyJoin (str ", ") (cf.map (fun f => f.id.getD []))) ∧
    (10 < uf.length →
      Alloc.unallocatedIdsCell uf =
        pyJoin (str ", ") ((uf.take 10).map (fun f => f.id.getD [])) ++
          str " ... (+" ++ natToStr (uf.length - 10) ++ str " more)" ∧
      ((uf.take 10).map (fun f => f.id.getD [])).length = 10) ∧
    (uf.length ≤ 10 →
      Alloc.unallocatedIdsCell uf =
        pyJoin (str ", ") (uf.map (fun f => f.id.getD []))) ∧
    (10 < gf.length →
      Fsc.allocSheetIdsCell gf =
        pyJoin (str ", ") ((gf.map Fsc.getId).take 10) ++ str "..." ∧
      ((gf.map Fsc.getId).take 10).length = 10) ∧
    (gf.length ≤ 10 →
      Fsc.allocSheetIdsCell gf = pyJoin (str ", ") (gf.map Fsc.getId)) ∧
    (10 < rel.length →
      Fsc.traceIdsCell rel = pyJoin (str ", ") (rel.take 10) ++ str "..." ∧
      (rel.take 10).length = 10) ∧
    (rel.length ≤ 10 → Fsc.traceIdsCell rel = pyJoin (str ", ") rel) := by
  refine ⟨fun h => ⟨?_, ?_⟩, fun h => ?_, fun h => ⟨?_, ?_⟩, fun h => ?_,
    fun h => ⟨?_, ?_⟩, fun h => ?_, fun h => ⟨?_, ?_⟩, fun h => ?_⟩
  · simp only [Alloc.fsrIdsCell, if_pos h, List.append_assoc]
  · simp only [List.length_map, List.length_take]
    omega
  · simp only [Alloc.fsrIdsCell, if_neg (by omega : ¬ 5 < cf.length),
      List.take_of_length_le h]
  · simp only [Alloc.unallocatedIdsCell, if_pos h, List.append_assoc]
  · simp only [List.length_map, List.length_take]
    omega
  · simp only [Alloc.unallocatedIdsCell, if_neg (by omega : ¬ 10 < uf.length),
      List.take_of_length_le h]
  · simp only [Fsc.allocSheetIdsCell, List.length_map, if_pos h]
  · simp only [List.length_take, List.length_map]
    omega
  · have hlen : (gf.map Fsc.getId).length ≤ 10 := by simp [h]
    simp only [Fsc.allocSheetIdsCell, if_neg (Nat.not_lt.mpr hlen),
      List.take_of_length_le hlen, List.append_nil]
  · simp only [Fsc.traceIdsCell, if_pos h]
  · simp only [List.length_take]
    omega
  · simp only [Fsc.traceIdsCell, if_neg (by omega : ¬ 10 < rel.length),
      List.take_of_length_le h, List.append_nil]

/-- Seven allocation-formatter FSRs with distinct one-letter ids. -/
def c7aFsrs : List Alloc.Fsr :=
  [str "a", str "b", str "c", str "d", str "e", str "f", str "g"].map
    (fun s =>
      { id := some s, asil := none, ftype := none,
        allocated_to := some (str "ECU"), allocation_type := none })

/-- Witness for C7 at a seven-element group (limit 5) and the concrete
over-limit FSC group. -/
theorem c7_truncation_amended_witness :
    Alloc.fsrIdsCell c7aFsrs =
      pyJoin (str ", ") ((c7aFsrs.take 5).map (fun f => f.id.getD [])) ++
        str " ... (+" ++ natToStr (c7aFsrs.length - 5) ++ str " more)" ∧
    ((c7aFsrs.take 5).map (fun f => f.id.getD [])).length = 5 :=
  (c7_truncation_amended c7aFsrs [] c7fsrs []).1 (by decide)

/-! ### C8 and C9: validator behaviour on empty and duplicate inputs -/

/-- C8: with an empty FSR list and a non-empty goal list both validators
return `is_valid = False` with the single error `"No FSRs available"`,
which mentions `"FSRs"` exactly once and says nothing about goals. -/
theorem c8_empty_fsrs_error (goals : List Fsc.Goal) (fsrs : List Fsc.Fsr)
    (hg : goals ≠ []) (hf : fsrs = []) :
    Fsc.excelValidateData goals fsrs =
      (false, [], [str "No FSRs available"]) ∧
    Fsc.wordValidateData goals fsrs =
      (false, [], [str "No FSRs available"]) ∧
    countSub (str "FSRs") (str "No FSRs available") = 1 ∧
    containsSub (str "goal") (str "No FSRs available") = false := by
  subst hf
  have hg' : goals.isEmpty = false := by
    cases goals with
    | nil => exact absurd rfl hg
    | cons a t => rfl
  refine ⟨?_, ?_, by decide, by decide⟩ <;>
    simp [Fsc.excelValidateData, Fsc.wordValidateData, hg']

/-- A single concrete safety goal for the validator witnesses. -/
def c8goal : Fsc.Goal :=
  { sg_id := some (str "SG-001"), id := none, asil := some (str "D") }

/-- Witness for C8 at one goal and no FSRs. -/
theorem c8_empty_fsrs_error_witness :
    Fsc.excelValidateData [c8goal] [] =
      (false, [], [str "No FSRs available"]) :=
  (c8_empty_fsrs_error _ _ (by simp) rfl).1

/-- C9: with non-empty goal and FSR lists in which two FSRs share an id,
`FSCExcelGenerator.validate_data` stays valid, emits the duplicate warning,
and reports no error. -/
theorem c9_duplicate_ids_warning (goals : List Fsc.Goal) (fsrs : List Fsc.Fsr)
    (hg : goals ≠ []) (hf : fsrs ≠ [])
    (hdup : ¬ (fsrs.map Fsc.getId).Nodup) :
    Fsc.excelValidateData goals fsrs =
      (true, [str "Duplicate FSR IDs detected"], []) ∧
    containsSub (str "Duplicate") (str "Duplicate FSR IDs detected") = true := by
  have hg' : goals.isEmpty = false := by
    cases goals with
    | nil => exact absurd rfl hg
    | cons a t => rfl
  have hf' : fsrs.isEmpty = false := by
    cases fsrs with
    | nil => exact absurd rfl hf
    | cons a t => rfl
  have hlen : (fsrs.map Fsc.getId).length ≠ (pySetOf (fsrs.map Fsc.getId)).length :=
    fun h => pySetOf_length_ne_of_not_nodup hdup h.symm
  have hlen2 : fsrs.length ≠ (pySetOf (fsrs.map Fsc.getId)).length := by
    simpa using hlen
  refine ⟨?_, by decide⟩
  simp [Fsc.excelValidateData, hg', hf', hlen, hlen2]

/-- Two FSRs sharing the id `FSR-SG-001-DET-1`, plus one goal. -/
def c9fsrs : List Fsc.Fsr :=
  [{ id := some (str "FSR-SG-001-DET-1"), fsr_id := none, ftype := none,
     asil := none, parent_safety_goal := none, parent_sg := none,
     allocated_to := none },
   { id := some (str "FSR-SG-001-DET-1"), fsr_id := none, ftype := none,
     asil := none, parent_safety_goal := none, parent_sg := none,
     allocated_to := none }]

/-- Witness for C9 at two FSRs sharing `FSR-SG-001-DET-1`. -/
theorem c9_duplicate_ids_warning_witness :
    Fsc.excelValidateData [c8goal] c9fsrs =
      (true, [str "Duplicate FSR IDs detected"], []) :=
  (c9_duplicate_ids_warning _ _ (by simp) (by simp [c9fsrs]) (by decide)).1

/-! ### C4: ASIL enumeration order -/

theorem groupAdd_keys {α : Type} (k : Str) (f : α) (acc : List (Str × List α)) :
    (groupAdd k f acc).map Prod.fst = insertNew (acc.map Prod.fst) k := by
  unfold groupAdd insertNew
  by_cases h : k ∈ acc.map Prod.fst
  · rw [if_pos (contains_true_iff.mpr h), if_pos h]
    rw [List.map_map]
    apply List.map_congr_left
    intro p _
    by_cases hp : p.1 = k <;> simp [hp]
  · rw [if_neg (fun hc => h (contains_true_iff.mp hc)), if_neg h]
    simp

theorem bumpCount_keys (acc : List (Str × Nat)) (k : Str) :
    (bumpCount acc k).map Prod.fst = insertNew (acc.map Prod.fst) k := by
  unfold bumpCount insertNew
  by_cases h : k ∈ acc.map Prod.fst
  · rw [if_pos (contains_true_iff.mpr h), if_pos h]
    rw [List.map_map]
    apply List.map_congr_left
    intro p _
    by_cases hp : p.1 = k <;> simp [hp]
  · rw [if_neg (fun hc => h (contains_true_iff.mp hc)), if_neg h]
    simp

theorem byAsil_keys (fsrs : List Alloc.Fsr) :
    (Alloc.byAsil fsrs).map Prod.fst =
      pySetOf (fsrs.map (fun f => f.asil.getD (str "QM"))) := by
  unfold Alloc.byAsil pySetOf
  suffices h : ∀ (l : List Alloc.Fsr) (acc : List (Str × List Alloc.Fsr)),
      (l.foldl (fun acc f => groupAdd (f.asil.getD (str "QM")) f acc) acc).map
          Prod.fst =
        (l.map (fun f => f.asil.getD (str "QM"))).foldl insertNew
          (acc.map Prod.fst) by
    simpa using h fsrs []
  intro l
  induction l with
  | nil => intro acc; rfl
  | cons f t ih =>
    intro acc
    simp only [List.foldl_cons, List.map_cons, ih, groupAdd_keys]

theorem summaryAsilCounts_keys (fsrs : List FsrXls.Fsr) :
    (FsrXls.summaryAsilCounts fsrs).map Prod.fst =
      pySetOf (fsrs.map (fun f => f.asil)) := by
  unfold FsrXls.summaryAsilCounts pySetOf
  suffices h : ∀ (l : List FsrXls.Fsr) (acc : List (Str × Nat)),
      (l.foldl (fun acc f => bumpCount acc f.asil) acc).map Prod.fst =
        (l.map (fun f => f.asil)).foldl insertNew (acc.map Prod.fst) by
    simpa using h fsrs []
  intro l
  induction l with
  | nil => intro acc; rfl
  | cons f t ih =>
    intro acc
    simp only [List.foldl_cons, List.map_cons, ih, bumpCount_keys]

theorem asilDistribution_keys (fsrs : List Fsc.Fsr) :
    (Fsc.asilDistribution fsrs).map Prod.fst =
      pySetOf (fsrs.map (fun f => f.asil.getD (str "QM"))) := by
  unfold Fsc.asilDistribution pySetOf
  suffices h : ∀ (l : List Fsc.Fsr) (acc : List (Str × Nat)),
      (l.foldl (fun acc f => bumpCount acc (f.asil.getD (str "QM"))) acc).map
          Prod.fst =
        (l.map (fun f => f.asil.getD (str "QM"))).foldl insertNew
          (acc.map Prod.fst) by
    simpa using h fsrs []
  intro l
  induction l with
  | nil => intro acc; rfl
  | cons f t ih =>
    intro acc
    simp only [List.foldl_cons, List.map_cons, ih, bumpCount_keys]

theorem mem_insertPairAsc {l : List (Str × Nat)} {x a : Str × Nat} :
    a ∈ insertPairAsc x l ↔ a = x ∨ a ∈ l := by
  induction l with
  | nil => simp [insertPairAsc]
  | cons y ys ih =>
    unfold insertPairAsc
    split
    · simp
    · simp only [List.mem_cons, ih]
      tauto

theorem map_fst_insertPairAsc {l : List (Str × Nat)} {x : Str × Nat}
    (hx : x.1 ∉ l.map Prod.fst) :
    (insertPairAsc x l).map Prod.fst = insertAsc x.1 (l.map Prod.fst) := by
  induction l with
  | nil => rfl
  | cons y ys ih =>
    have hxy : x.1 ≠ y.1 := by
      intro h
      exact hx (by simp [h])
    have hxt : x.1 ∉ ys.map Prod.fst := fun h => hx (by simp [h])
    have hpair : insertPairAsc x (y :: ys) =
        if pyStrLt x.1 y.1 || (x.1 = y.1 && decide (x.2 < y.2)) then x :: y :: ys
        else y :: insertPairAsc x ys := rfl
    have hkey : insertAsc x.1 (y.1 :: ys.map Prod.fst) =
        if pyStrLt x.1 y.1 then x.1 :: y.1 :: ys.map Prod.fst
        else y.1 :: insertAsc x.1 (ys.map Prod.fst) := rfl
    rw [hpair, List.map_cons, hkey]
    by_cases hlt : pyStrLt x.1 y.1 = true
    · rw [if_pos (by simp [hlt]), if_pos hlt]
      rfl
    · rw [if_neg (by simp [hlt, hxy]), if_neg hlt]
      simp [ih hxt]

theorem mem_pySortedPairs {ps : List (Str × Nat)} {a : Str × Nat} :
    a ∈ pySortedPairs ps ↔ a ∈ ps := by
  unfold pySortedPairs
  induction ps with
  | nil => simp
  | cons x t ih =>
    simp only [List.foldr_cons, mem_insertPairAsc, List.mem_cons, ih]

theorem pySortedPairs_fst {ps : List (Str × Nat)}
    (h : (ps.map Prod.fst).Nodup) :
    (pySortedPairs ps).map Prod.fst = pySorted (ps.map Prod.fst) := by
  induction ps with
  | nil => rfl
  | cons x t ih =>
    simp only [List.map_cons, List.nodup_cons] at h
    have hnotin : x.1 ∉ (pySortedPairs t).map Prod.fst := by
      intro hmem
      rcases List.mem_map.mp hmem with ⟨q, hq, hq1⟩
      exact h.1 (hq1 ▸ List.mem_map_of_mem Prod.fst (mem_pySortedPairs.mp hq))
    have hstep : pySortedPairs (x :: t) = insertPairAsc x (pySortedPairs t) := rfl
    rw [hstep, map_fst_insertPairAsc hnotin, ih h.2, List.map_cons]
    rfl

/-- Two FSC FSRs with ASILs A and D. -/
def c4fsrs : List Fsc.Fsr :=
  [{ id := some (str "FSR-1"), fsr_id := none, ftype := none,
     asil := some (str "A"), parent_safety_goal := none, parent_sg := none,
     allocated_to := none },
   { id := some (str "FSR-2"), fsr_id := none, ftype := none,
     asil := some (str "D"), parent_safety_goal := none, parent_sg := none,
     allocated_to := none }]

/-- C4 counterexample: the FSC statistics sheet enumerates the present ASIL
groups {A, D} as A then D (`sorted(...items())`, ascending), not in the
fixed order D, C, B, A, QM required by the claim. -/
theorem c4_counterexample_statistics_order :
    Fsc.statisticsAsilKeys c4fsrs = [str "A", str "D"] ∧
    asilOrder.filter
      (fun a =>
        (pySetOf (c4fsrs.map (fun f => f.asil.getD (str "QM")))).contains a) =
      [str "D", str "A"] ∧
    Fsc.statisticsAsilKeys c4fsrs ≠
      asilOrder.filter
        (fun a =>
          (pySetOf (c4fsrs.map (fun f => f.asil.getD (str "QM")))).contains a) := by
  decide

/-- C4 amended: the allocation By ASIL sheet and the FSR summary sheet
enumerate the present ASIL groups in the fixed order D, C, B, A, QM,
skipping absent levels; the FSC statistics sheet instead enumerates the
present ASIL keys sorted ascending lexicographically (so A comes before D). -/
theorem c4_asil_enumeration_amended (afs : List Alloc.Fsr)
    (ffs : List FsrXls.Fsr) (gfs : List Fsc.Fsr) :
    Alloc.byAsilRowKeys afs =
      asilOrder.filter
        (fun a =>
          (pySetOf (afs.map (fun f => f.asil.getD (str "QM")))).contains a) ∧
    FsrXls.summaryAsilKeys ffs =
      asilOrder.filter
        (fun a => (pySetOf (ffs.map (fun f => f.asil))).contains a) ∧
    Fsc.statisticsAsilKeys gfs =
      pySorted (pySetOf (gfs.map (fun f => f.asil.getD (str "QM")))) := by
  refine ⟨?_, ?_, ?_⟩
  · unfold Alloc.byAsilRowKeys
    rw [byAsil_keys]
  · unfold FsrXls.summaryAsilKeys
    rw [summaryAsilCounts_keys]
  · unfold Fsc.statisticsAsilKeys
    rw [pySortedPairs_fst, asilDistribution_keys]
    rw [asilDistribution_keys]
    exact pySetOf_nodup _

/-! ### C6: coverage semantics -/

/-- All parent-goal ids referenced by the FSRs, in traversal order (list
parents contribute every element, string parents contribute the string when
non-empty), as accumulated by `goals_with_fsrs` before deduplication. -/
def allParents (fsrs : List Fsc.Fsr) : List Str :=
  fsrs.flatMap (fun f =>
    match Fsc.getParent f with
    | .plist l => l
    | .pstr s => if !s.isEmpty then [s] else [])

theorem goalsWithFsrs_eq_pySetOf (fsrs : List Fsc.Fsr) :
    Fsc.goalsWithFsrs fsrs = pySetOf (allParents fsrs) := by
  unfold Fsc.goalsWithFsrs pySetOf
  suffices h : ∀ (l : List Fsc.Fsr) (acc : List Str),
      l.foldl
        (fun acc f =>
          match Fsc.getParent f with
          | .plist l => l.foldl insertNew acc
          | .pstr s => if !s.isEmpty then insertNew acc s else acc)
        acc = (allParents l).foldl insertNew acc from h fsrs []
  intro l
  induction l with
  | nil => intro acc; rfl
  | cons f t ih =>
    intro acc
    have hAP : allParents (f :: t) =
        (match Fsc.getParent f with
          | .plist pl => pl
          | .pstr s => if !s.isEmpty then [s] else []) ++ allParents t := by
      simp [allParents]
    rw [List.foldl_cons, hAP, List.foldl_append, ih]
    congr 1
    rcases hp : Fsc.getParent f with s | pl
    · simp only [hp]
      by_cases hs : s.isEmpty = true
      · simp [hs]
      · simp [hs]
    · simp only [hp]

/-- Whether an FSR's parent field links it to `gid` (exact string equality,
or exact membership for list-valued parents), as the traceability sheet
tests it. -/
def parentHasB (gid : Str) (f : Fsc.Fsr) : Bool :=
  match Fsc.getParent f with
  | .plist l => l.contains gid
  | .pstr s => decide (s = gid)

theorem traceRelatedIds_eq_filter (gid : Str) (fsrs : List Fsc.Fsr) :
    Fsc.traceRelatedIds gid fsrs =
      ((fsrs.filter (parentHasB gid)).map Fsc.getId) := by
  unfold Fsc.traceRelatedIds
  suffices h : ∀ (l : List Fsc.Fsr) (acc : List Str),
      l.foldl
        (fun acc f =>
          match Fsc.getParent f with
          | .plist pl => if pl.contains gid then acc ++ [Fsc.getId f] else acc
          | .pstr s => if s = gid then acc ++ [Fsc.getId f] else acc)
        acc = acc ++ ((l.filter (parentHasB gid)).map Fsc.getId) by
    simpa using h fsrs []
  intro l
  induction l with
  | nil => intro acc; simp
  | cons f t ih =>
    intro acc
    simp only [List.foldl_cons]
    have hstep :
        (match Fsc.getParent f with
          | .plist pl => if pl.contains gid then acc ++ [Fsc.getId f] else acc
          | .pstr s => if s = gid then acc ++ [Fsc.getId f] else acc) =
          if parentHasB gid f then acc ++ [Fsc.getId f] else acc := by
      unfold parentHasB
      rcases Fsc.getParent f with s | pl
      · by_cases hs : s = gid <;> simp [hs]
      · rfl
    rw [hstep]
    by_cases hf : parentHasB gid f = true
    · rw [if_pos hf, ih]
      simp [List.filter_cons, hf]
    · rw [if_neg hf, ih]
      simp [List.filter_cons, hf]

/-- C6 amended: the coverage percentage of `FSCWordGenerator.validate_data`
equals (number of DISTINCT parent ids referenced by FSRs, whether or not
they name a known goal) / (number of goals) × 100 — so dangling references
do raise the reported coverage; per goal, the traceability sheet reports a
goal as linked iff some FSR's parent field contains its id by exact,
case-sensitive match. -/
theorem c6_coverage_amended (goals : List Fsc.Goal) (fsrs : List Fsc.Fsr) :
    Fsc.wordCoveragePct goals fsrs =
      ((allParents fsrs).toFinset.card : ℚ) / (goals.length : ℚ) * 100 ∧
    ∀ g ∈ goals,
      (Fsc.traceRelatedIds (Fsc.goalIdOf g) fsrs ≠ [] ↔
        ∃ f ∈ fsrs,
          (match Fsc.getParent f with
            | .plist l => Fsc.goalIdOf g ∈ l
            | .pstr s => s = Fsc.goalIdOf g)) := by
  constructor
  · unfold Fsc.wordCoveragePct
    have hcard : ((Fsc.goalsWithFsrs fsrs).length : ℚ) =
        ((allParents fsrs).toFinset.card : ℚ) := by
      rw [goalsWithFsrs_eq_pySetOf, pySetOf_length, List.card_toFinset]
    by_cases hg : goals.isEmpty = true
    · have : goals = [] := List.isEmpty_iff.mp hg
      subst this
      simp
    · rw [if_neg hg, hcard]
  · intro g _
    rw [traceRelatedIds_eq_filter]
    constructor
    · intro hne
      rcases List.exists_mem_of_ne_nil _ hne with ⟨x, hx⟩
      rcases List.mem_map.mp hx with ⟨f, hf, -⟩
      rcases List.mem_filter.mp hf with ⟨hmem, hp⟩
      refine ⟨f, hmem, ?_⟩
      unfold parentHasB at hp
      rcases hgp : Fsc.getParent f with s | pl
      · rw [hgp] at hp
        simp only at hp
        simp only [hgp]
        exact of_decide_eq_true hp
      · rw [hgp] at hp
        simp only at hp
        simp only [hgp]
        exact contains_true_iff.mp hp
    · rintro ⟨f, hmem, hp⟩
      intro hnil
      rw [List.map_eq_nil_iff, List.filter_eq_nil_iff] at hnil
      refine hnil f hmem ?_
      unfold parentHasB
      rcases hgp : Fsc.getParent f with s | pl
      · rw [hgp] at hp
        simp only at hp
        simp only [hgp]
        exact decide_eq_true hp
      · rw [hgp] at hp
        simp only at hp
        simp only [hgp]
        exact contains_true_iff.mpr hp

/-- The goal `SG-001` of the C6 scenario. -/
def c6goal : Fsc.Goal := { sg_id := some (str "SG-001"), id := none, asil := none }

/-- One goal `SG-001`. -/
def c6goals : List Fsc.Goal := [c6goal]

/-- One FSR whose parent field names only the unknown goal `SG-999`. -/
def c6fsrs : List Fsc.Fsr :=
  [{ id := some (str "FSR-X"), fsr_id := none, ftype := none, asil := none,
     parent_safety_goal := some (.pstr (str "SG-999")), parent_sg := none,
     allocated_to := none }]

/-- C6 counterexample: with one goal `SG-001` and one FSR referencing only
the unknown id `SG-999`, the reported coverage is 100% although no goal has
a linked FSR (the claim's formula gives 0%). -/
theorem c6_counterexample_dangling_reference :
    Fsc.wordCoveragePct c6goals c6fsrs = 100 ∧
    Fsc.traceRelatedIds (str "SG-001") c6fsrs = [] ∧
    c6goals.map Fsc.goalIdOf = [str "SG-001"] := by
  refine ⟨?_, by decide, by decide⟩
  have h1 : Fsc.goalsWithFsrs c6fsrs = [str "SG-999"] := by decide
  unfold Fsc.wordCoveragePct
  rw [if_neg (by decide), h1]
  norm_num [c6goals]

/-- Witness for C6 at the concrete goal/FSR pair. -/
theorem c6_coverage_amended_witness :
    Fsc.traceRelatedIds (Fsc.goalIdOf c6goal) c6fsrs ≠ [] ↔
      ∃ f ∈ c6fsrs,
        (match Fsc.getParent f with
          | .plist l => Fsc.goalIdOf c6goal ∈ l
          | .pstr s => s = Fsc.goalIdOf c6goal) :=
  (c6_coverage_amended c6goals c6fsrs).2 _ (by simp [c6goals])

/-! ### C5: header detection precedes data rows -/

/-- Whether a line is recognized as the FSR table header row (the branch of
`parse_fsrs_table_format` that sets `header_found`). -/
def fsrTableHeaderLine (line : Str) : Bool :=
  let line_stripped := pyStrip line
  if line_stripped.isEmpty || pyStartswith (str "|---") line_stripped ||
      pyStartswith (str "|-") line_stripped then false
  else if !containsSub (str "|") line_stripped then false
  else
    let cells := FsrXls.cellsOf line_stripped
    if cells.isEmpty then false else FsrXls.isFsrHeaderCells cells

theorem tableStep_no_header {st : FsrXls.TState} {l : Str}
    (hh : st.header_found = false) (hl : fsrTableHeaderLine l = false) :
    FsrXls.tableStep st l = st := by
  unfold FsrXls.tableStep
  unfold fsrTableHeaderLine at hl
  simp only at hl ⊢
  by_cases h1 : ((pyStrip l).isEmpty || pyStartswith (str "|---") (pyStrip l) ||
      pyStartswith (str "|-") (pyStrip l)) = true
  · rw [if_pos h1]
  · rw [if_neg h1]
    rw [if_neg h1] at hl
    by_cases h2 : (!containsSub (str "|") (pyStrip l)) = true
    · rw [if_pos h2]
    · rw [if_neg h2]
      rw [if_neg h2] at hl
      by_cases h3 : (FsrXls.cellsOf (pyStrip l)).isEmpty = true
      · rw [if_pos h3]
      · rw [if_neg h3]
        rw [if_neg h3] at hl
        simp [hh, hl]

theorem haraStep_no_header {st : Hara.HState} {l : Str}
    (hh : st.in_table = false) (hl : Hara.isHaraHeaderLine l = false) :
    Hara.haraStep st l = st := by
  unfold Hara.haraStep
  unfold Hara.isHaraHeaderLine at hl
  simp only at hl ⊢
  by_cases h1 : (!pyStartswith (str "|") (pyStrip l)) = true
  · rw [if_pos h1]
  · rw [if_neg h1]
    rw [if_neg h1] at hl
    by_cases h2 : ((((pySplitChar '|' (pyStrip l)).drop 1).dropLast).map pyStrip).isEmpty = true
    · rw [if_pos h2]
    · rw [if_neg h2]
      rw [if_neg h2] at hl
      set cells := (((pySplitChar '|' (pyStrip l)).drop 1).dropLast).map pyStrip
      have hsep : Hara.sepOrData st cells = st := by
        unfold Hara.sepOrData
        by_cases h4 : ((cells.take 3).all (fun cell => containsSub (str "-") cell)) = true
        · rw [if_pos h4]
        · rw [if_neg h4]
          simp [hh]
      by_cases h3 : (containsSub (str "Hazard ID") (cells.headD []) ||
          containsSub (str "ID") (cells.headD []) ||
          containsSub (str "HAZ-") (cells.headD [])) = true
      · rw [if_pos h3]
        have hinner : (containsSub (str "Hazard ID") (cells.headD []) ||
            containsSub (str "ID") (cells.headD [])) = false := by
          cases hB : (containsSub (str "Hazard ID") (cells.headD []) ||
              containsSub (str "ID") (cells.headD [])) with
          | false => rfl
          | true =>
            rw [h3, hB] at hl
            simp at hl
        have hcond : ¬ ((containsSub (str "Hazard ID") (cells.headD []) ||
            containsSub (str "ID") (cells.headD [])) = true) := by
          rw [hinner]
          simp
        rw [if_neg hcond]
        exact hsep
      · rw [if_neg h3]
        exact hsep

/-- C5: for every input string, if no line is recognized as a header row
then both table parsers produce zero records (and, being total Lean
functions over the same line discipline as the source, they terminate on
all inputs). -/
theorem c5_no_header_no_records (fsrContent haraContent : Str)
    (h1 : ∀ l ∈ pySplitChar '\n' fsrContent, fsrTableHeaderLine l = false)
    (h2 : ∀ l ∈ pySplitChar '\n' haraContent, Hara.isHaraHeaderLine l = false) :
    FsrXls.parseFsrsTableFormat fsrContent = [] ∧
    Hara.parseHaraTable haraContent = [] := by
  constructor
  · unfold FsrXls.parseFsrsTableFormat FsrXls.parseFsrsTableLines
    suffices h : ∀ (lines : List Str),
        (∀ l ∈ lines, fsrTableHeaderLine l = false) →
        ∀ st : FsrXls.TState, st.header_found = false →
          lines.foldl FsrXls.tableStep st = st by
      rw [h _ h1 {} rfl]
    intro lines
    induction lines with
    | nil => intro _ st _; rfl
    | cons l t ih =>
      intro hall st hst
      rw [List.foldl_cons,
        tableStep_no_header hst (hall l (List.mem_cons_self l t))]
      exact ih (fun x hx => hall x (List.mem_cons_of_mem l hx)) st hst
  · unfold Hara.parseHaraTable Hara.parseHaraTableLines
    suffices h : ∀ (lines : List Str),
        (∀ l ∈ lines, Hara.isHaraHeaderLine l = false) →
        ∀ st : Hara.HState, st.in_table = false →
          lines.foldl Hara.haraStep st = st by
      rw [h _ h2 {} rfl]
    intro lines
    induction lines with
    | nil => intro _ st _; rfl
    | cons l t ih =>
      intro hall st hst
      rw [List.foldl_cons,
        haraStep_no_header hst (hall l (List.mem_cons_self l t))]
      exact ih (fun x hx => hall x (List.mem_cons_of_mem l hx)) st hst

/-- Headerless FSR-table input that still contains a data-looking row. -/
def c5fsrContent : Str := str "hello\n| FSR-001 | desc |"

/-- Headerless HARA input that still contains a data-looking row. -/
def c5haraContent : Str := str "| HAZ-001 | a |\nnothing"

/-- Witness for C5: both parsers yield zero records on concrete headerless
inputs containing data-like rows. -/
theorem c5_no_header_no_records_witness :
    FsrXls.parseFsrsTableFormat c5fsrContent = [] ∧
    Hara.parseHaraTable c5haraContent = [] :=
  c5_no_header_no_records c5fsrContent c5haraContent (by decide) (by decide)

/-! ### C10: markdown-parser record invariants -/

/-- Invariant carried through the markdown parser's state: `Q` holds for
every flushed and accumulating record, and the current goal is drawn from
the supplied list. -/
def MdInv (safety_goals : List FsrXls.Goal) (Q : FsrXls.Fsr → Prop)
    (st : FsrXls.MState) : Prop :=
  (∀ r ∈ st.fsrs, Q r) ∧
  (∀ r, st.current_fsr = some r → Q r) ∧
  (∀ g, st.current_sg = some g → g ∈ safety_goals)

theorem mdSection_parts (safety_goals : List FsrXls.Goal)
    (st : FsrXls.MState) (ls : Str) :
    (FsrXls.mdSection safety_goals st ls).fsrs = st.fsrs ∧
    (FsrXls.mdSection safety_goals st ls).current_fsr = st.current_fsr ∧
    (∀ g, (FsrXls.mdSection safety_goals st ls).current_sg = some g →
      g ∈ safety_goals ∨ st.current_sg = some g) := by
  unfold FsrXls.mdSection
  split
  · cases hf : safety_goals.find? (fun sg => containsSub sg.id ls) with
    | none => exact ⟨rfl, rfl, fun g hg => Or.inr hg⟩
    | some sg =>
      refine ⟨rfl, rfl, fun g hg => ?_⟩
      simp only [Option.some.injEq] at hg
      exact Or.inl (hg ▸ List.mem_of_find?_eq_some hf)
  · exact ⟨rfl, rfl, fun g hg => Or.inr hg⟩

theorem mdAssignField_parts (Q : FsrXls.Fsr → Prop) (st : FsrXls.MState)
    (f : FsrXls.Fsr) (n v : Str) (hcf : st.current_fsr = some f) (hQf : Q f)
    (hstable : ∀ v', Q { f with description := v' } ∧
      Q { f with operating_modes := v' } ∧ Q { f with allocated_to := v' } ∧
      Q { f with verification_criteria := v' } ∧ Q { f with ftti := v' })
    (hasilQ : (containsSub (str "asil") n &&
      !containsSub (str "linked") n) = true → Q { f with asil := v }) :
    (FsrXls.mdAssignField st f n v).fsrs = st.fsrs ∧
    (FsrXls.mdAssignField st f n v).current_sg = st.current_sg ∧
    (∀ r, (FsrXls.mdAssignField st f n v).current_fsr = some r → Q r) := by
  unfold FsrXls.mdAssignField
  split_ifs with h1 h2 h3 h4 h5 h6 <;>
    refine ⟨rfl, rfl, fun r hr => ?_⟩ <;>
    simp only [Option.some.injEq] at hr
  · exact hr ▸ (hstable v).1
  · exact hr ▸ hasilQ h2
  · exact hr ▸ (hstable v).2.1
  · exact hr ▸ (hstable v).2.2.1
  · exact hr ▸ (hstable v).2.2.2.1
  · exact hr ▸ (hstable v).2.2.2.2
  · rw [hcf] at hr
    simp only [Option.some.injEq] at hr
    exact hr ▸ hQf

theorem mdRest_inv (safety_goals : List FsrXls.Goal) (Q : FsrXls.Fsr → Prop)
    (ls : Str) (st : FsrXls.MState)
    (hI : MdInv safety_goals Q st)
    (hmk : ∀ g ∈ safety_goals, ∀ i, Q (FsrXls.mkMdFsr g i))
    (hstable : ∀ f v, Q f →
      Q { f with description := v } ∧ Q { f with operating_modes := v } ∧
      Q { f with allocated_to := v } ∧ Q { f with verification_criteria := v } ∧
      Q { f with ftti := v })
    (hasil : ∀ f v n, FsrXls.mdFieldOf ls = some (n, v) →
      (containsSub (str "asil") n && !containsSub (str "linked") n) = true →
      Q f → Q { f with asil := v }) :
    MdInv safety_goals Q (FsrXls.mdRest st ls) := by
  obtain ⟨hF, hC, hS⟩ := hI
  unfold FsrXls.mdRest
  cases hcs : st.current_sg with
  | none => exact ⟨hF, hC, hS⟩
  | some sg =>
    have hsg : sg ∈ safety_goals := hS sg hcs
    dsimp only
    by_cases hmark : FsrXls.isFsrMarker ls = true
    · rw [if_pos hmark]
      refine ⟨?_, ?_, ?_⟩
      · intro r hr
        cases hcf : st.current_fsr with
        | none =>
          rw [hcf] at hr
          exact hF r hr
        | some f =>
          rw [hcf] at hr
          rcases List.mem_append.mp hr with h' | h'
          · exact hF r h'
          · simp only [List.mem_singleton] at h'
            exact h' ▸ hC f hcf
      · intro r hr
        simp only [Option.some.injEq] at hr
        exact hr ▸ hmk sg hsg _
      · intro g hg
        simp only [Option.some.injEq] at hg
        exact hg ▸ hsg
    · rw [if_neg hmark]
      cases hcf : st.current_fsr with
      | none => exact ⟨hF, hC, hS⟩
      | some f =>
        have hQf : Q f := hC f hcf
        dsimp only
        by_cases hempty : ls.isEmpty = true
        · rw [if_pos hempty]
          exact ⟨hF, hC, hS⟩
        · rw [if_neg hempty]
          cases hfld : FsrXls.mdFieldOf ls with
          | some nv =>
            obtain ⟨n, v⟩ := nv
            dsimp only
            obtain ⟨hfa, hfb, hfc⟩ :=
              mdAssignField_parts Q st f n v hcf hQf
                (fun v' => hstable f v' hQf)
                (fun hcond => hasil f v n (by rw [hfld]) hcond hQf)
            refine ⟨?_, ?_, ?_⟩
            · rw [hfa]; exact hF
            · exact hfc
            · rw [hfb]; exact hS
          | none =>
            dsimp only
            by_cases hcont : (st.accumulating_description &&
                !(FsrXls.mdCleanLine ls).isEmpty &&
                !pyStartswith (str "#") (FsrXls.mdCleanLine ls)) = true
            · rw [if_pos hcont]
              by_cases hdesc : (!f.description.isEmpty) = true
              · rw [if_pos hdesc]
                refine ⟨hF, ?_, ?_⟩
                · intro r hr
                  simp only [Option.some.injEq] at hr
                  exact hr ▸ (hstable f _ hQf).1
                · intro g hg
                  simp only [Option.some.injEq] at hg
                  exact hg ▸ hsg
              · rw [if_neg hdesc]
                exact ⟨hF, hC, hS⟩
            · rw [if_neg hcont]
              exact ⟨hF, hC, hS⟩

theorem md_records_inv (safety_goals : List FsrXls.Goal) (lines : List Str)
    (Q : FsrXls.Fsr → Prop)
    (hmk : ∀ g ∈ safety_goals, ∀ i, Q (FsrXls.mkMdFsr g i))
    (hstable : ∀ f v, Q f →
      Q { f with description := v } ∧ Q { f with operating_modes := v } ∧
      Q { f with allocated_to := v } ∧ Q { f with verification_criteria := v } ∧
      Q { f with ftti := v })
    (hasil : ∀ l ∈ lines, ∀ f v n,
      FsrXls.mdFieldOf (pyStrip l) = some (n, v) →
      (containsSub (str "asil") n && !containsSub (str "linked") n) = true →
      Q f → Q { f with asil := v }) :
    ∀ r ∈ FsrXls.parseFsrsMarkdownLines safety_goals lines, Q r := by
  have hstep : ∀ l ∈ lines, ∀ st, MdInv safety_goals Q st →
      MdInv safety_goals Q (FsrXls.mdStep safety_goals st l) := by
    intro l hl st hI
    unfold FsrXls.mdStep
    obtain ⟨hsecF, hsecC, hsecS⟩ := mdSection_parts safety_goals st (pyStrip l)
    have hInv1 : MdInv safety_goals Q
        (FsrXls.mdSection safety_goals st (pyStrip l)) := by
      refine ⟨?_, ?_, ?_⟩
      · rw [hsecF]; exact hI.1
      · rw [hsecC]; exact hI.2.1
      · intro g hg
        rcases hsecS g hg with h | h
        · exact h
        · exact hI.2.2 g h
    refine mdRest_inv safety_goals Q (pyStrip l) _ hInv1 hmk hstable ?_
    intro f v n hfld hcond hQf
    exact hasil l hl f v n hfld hcond hQf
  have hfold : ∀ (ls : List Str), (∀ l ∈ ls, l ∈ lines) →
      ∀ st, MdInv safety_goals Q st →
        MdInv safety_goals Q (ls.foldl (FsrXls.mdStep safety_goals) st) := by
    intro ls
    induction ls with
    | nil => intro _ st h; exact h
    | cons l t ih =>
      intro hsub st h
      exact ih (fun x hx => hsub x (List.mem_cons_of_mem l hx)) _
        (hstep l (hsub l (List.mem_cons_self l t)) st h)
  intro r hr
  unfold FsrXls.parseFsrsMarkdownLines at hr
  dsimp only at hr
  have hInv := hfold lines (fun l hl => hl) {} ⟨by simp, by simp, by simp⟩
  cases hcf : (lines.foldl (FsrXls.mdStep safety_goals) {}).current_fsr with
  | none =>
    rw [hcf] at hr
    exact hInv.1 r hr
  | some f =>
    rw [hcf] at hr
    rcases List.mem_append.mp hr with h' | h'
    · exact hInv.1 r h'
    · simp only [List.mem_singleton] at h'
      exact h' ▸ hInv.2.1 f hcf

/-- C10: every record emitted by the markdown parser carries the id of a
goal from the provided list as its `safety_goal_id` (no record is created
before a section marker has matched a provided goal), and its `asil` equals
that parent goal's `asil` unless an explicit ASIL field line of the input
overrides it — in which case the record's `asil` is exactly the field value
extracted from such a line. -/
theorem c10_markdown_goal_and_asil_inheritance
    (safety_goals : List FsrXls.Goal) (lines : List Str) :
    ∀ r ∈ FsrXls.parseFsrsMarkdownLines safety_goals lines,
      ∃ g ∈ safety_goals, r.safety_goal_id = g.id ∧
        (r.asil = g.asil ∨
          ∃ l ∈ lines, ∃ n,
            FsrXls.mdFieldOf (pyStrip l) = some (n, r.asil) ∧
            (containsSub (str "asil") n &&
              !containsSub (str "linked") n) = true) := by
  refine md_records_inv safety_goals lines
    (fun r => ∃ g ∈ safety_goals, r.safety_goal_id = g.id ∧
      (r.asil = g.asil ∨
        ∃ l ∈ lines, ∃ n,
          FsrXls.mdFieldOf (pyStrip l) = some (n, r.asil) ∧
          (containsSub (str "asil") n && !containsSub (str "linked") n) = true))
    (fun g hg i => ⟨g, hg, rfl, Or.inl rfl⟩)
    (fun f v hQ => ⟨hQ, hQ, hQ, hQ, hQ⟩)
    ?_
  intro l hl f v n hfld hcond hQ
  obtain ⟨g, hg, hid, -⟩ := hQ
  exact ⟨g, hg, hid, Or.inr ⟨l, hl, n, hfld, hcond⟩⟩

/-- The safety goal used by the concrete parser scenarios. -/
def c1goal : FsrXls.Goal :=
  { id := str "SG-001", description := str "Avoid unintended braking",
    asil := str "D", ftti := some (str "100ms"),
    safe_state := some (str "Safe stop") }

/-- A bold-label block carrying one FSR for `SG-001`. -/
def c1MdLines : List Str :=
  [str "FSRs for Safety Goal: SG-001",
   str "FSR-SG-001-DET-1",
   str "1. **Description: Detect faults**",
   str "1. **Allocation: ECU**",
   str "1. **Verification: Test**"]

/-- The record the markdown parser produces from `c1MdLines`. -/
def c10rec : FsrXls.Fsr :=
  { id := str "FSR-SG-001-DET-1"
    description := str "Detect faults"
    allocated_to := str "ECU"
    asil := str "D"
    safety_goal_id := str "SG-001"
    verification_criteria := str "Test"
    ftti := str "100ms"
    ftype := str "Fault Detection"
    operating_modes := []
    safety_goal := str "Avoid unintended braking"
    safe_state := str "Safe stop"
    emergency_operation := []
    functional_redundancy := [] }

/-- A bold-label block for `SG-001` whose record carries an explicit ASIL
field line overriding the inherited level D with B. -/
def c10ovLines : List Str :=
  [str "FSRs for Safety Goal: SG-001",
   str "FSR-SG-001-DET-1",
   str "1. **ASIL: B**"]

/-- The record the markdown parser produces from `c10ovLines`. -/
def c10ovRec : FsrXls.Fsr :=
  { id := str "FSR-SG-001-DET-1"
    description := []
    allocated_to := []
    asil := str "B"
    safety_goal_id := str "SG-001"
    verification_criteria := []
    ftti := str "100ms"
    ftype := str "Fault Detection"
    operating_modes := []
    safety_goal := str "Avoid unintended braking"
    safe_state := str "Safe stop"
    emergency_operation := []
    functional_redundancy := [] }

/-- Witness for C10 at a block whose FSR has an explicit ASIL field line:
the record keeps its parent goal's id while its asil is the overriding
line's value B, different from the parent's D. -/
theorem c10_markdown_goal_and_asil_inheritance_witness :
    (∃ g ∈ [c1goal], c10ovRec.safety_goal_id = g.id ∧
      (c10ovRec.asil = g.asil ∨
        ∃ l ∈ c10ovLines, ∃ n,
          FsrXls.mdFieldOf (pyStrip l) = some (n, c10ovRec.asil) ∧
          (containsSub (str "asil") n &&
            !containsSub (str "linked") n) = true)) ∧
    c10ovRec.asil = str "B" ∧ c1goal.asil = str "D" :=
  ⟨c10_markdown_goal_and_asil_inheritance [c1goal] c10ovLines c10ovRec
    (by decide), by decide, by decide⟩

/-! ### C1: table-format versus bold-label-format parsing -/

/-- Whether the id embeds one of the eight `-CODE-` type infixes. -/
def containsTypeCode (fsr_id : Str) : Bool :=
  FsrXls.typeCodes.any (fun c => containsSub (str "-" ++ c ++ str "-") fsr_id)

theorem tableStep_fsrs_cases (st : FsrXls.TState) (l : Str) :
    ∀ r ∈ (FsrXls.tableStep st l).fsrs,
      r ∈ st.fsrs ∨ ∃ cells, r = FsrXls.mkTableFsr st.hi cells := by
  intro r hr
  unfold FsrXls.tableStep at hr
  dsimp only at hr
  split_ifs at hr with h1 h2 h3 h4 h5
  · exact Or.inl hr
  · exact Or.inl hr
  · exact Or.inl hr
  · exact Or.inl hr
  · rcases List.mem_append.mp hr with h' | h'
    · exact Or.inl h'
    · simp only [List.mem_singleton] at h'
      exact Or.inr ⟨_, h'⟩
  · exact Or.inl hr

theorem table_records_ftype (lines : List Str) :
    ∀ r ∈ FsrXls.parseFsrsTableLines lines,
      r.ftype = FsrXls.tableTypeOf r.id := by
  unfold FsrXls.parseFsrsTableLines
  suffices h : ∀ (ls : List Str) (st : FsrXls.TState),
      (∀ r ∈ st.fsrs, r.ftype = FsrXls.tableTypeOf r.id) →
      ∀ r ∈ (ls.foldl FsrXls.tableStep st).fsrs,
        r.ftype = FsrXls.tableTypeOf r.id by
    intro r hr
    exact h lines {} (by simp) r hr
  intro ls
  induction ls with
  | nil => intro st hst; exact hst
  | cons l t ih =>
    intro st hst
    refine ih _ ?_
    intro r hr
    rcases tableStep_fsrs_cases st l r hr with h' | ⟨cells, rfl⟩
    · exact hst r h'
    · rfl

theorem mdTypeOf_mem (i : Str) :
    FsrXls.mdTypeOf i ∈ FsrXls.typeMapping.map Prod.snd ∨
      FsrXls.mdTypeOf i = str "General" := by
  unfold FsrXls.mdTypeOf
  cases hf : FsrXls.typeMapping.find?
      (fun p => containsSub (str "-" ++ p.1 ++ str "-") i) with
  | none => exact Or.inr rfl
  | some p =>
    exact Or.inl (List.mem_map_of_mem Prod.snd (List.mem_of_find?_eq_some hf))

theorem md_records_ftype (safety_goals : List FsrXls.Goal) (lines : List Str) :
    ∀ r ∈ FsrXls.parseFsrsMarkdownLines safety_goals lines,
      r.ftype ∈ FsrXls.typeMapping.map Prod.snd ∨ r.ftype = str "General" :=
  md_records_inv safety_goals lines
    (fun r => r.ftype ∈ FsrXls.typeMapping.map Prod.snd ∨ r.ftype = str "General")
    (fun _ _ i => mdTypeOf_mem i)
    (fun _ _ hQ => ⟨hQ, hQ, hQ, hQ, hQ⟩)
    (fun _ _ _ _ _ _ _ hQ => hQ)

theorem tableTypeOf_mem_of_code {i : Str} (h : containsTypeCode i = true) :
    FsrXls.tableTypeOf i ∈ FsrXls.typeCodes := by
  unfold FsrXls.tableTypeOf
  cases hf : FsrXls.typeCodes.find?
      (fun c => containsSub (str "-" ++ c ++ str "-") i) with
  | none =>
    exfalso
    unfold containsTypeCode at h
    rcases List.any_eq_true.mp h with ⟨c, hc, hcc⟩
    exact absurd hcc (by simpa using List.find?_eq_none.mp hf c hc)
  | some c => exact List.mem_of_find?_eq_some hf

/-- The table block encoding the same single FSR as `c1MdLines`. -/
def c1TblLines : List Str :=
  [str "| FSR ID | Description | Allocation | ASIL | Linked SG | Verification | FTTI |",
   str "|---|---|---|---|---|---|---|",
   str "| FSR-SG-001-DET-1 | Detect faults | ECU | D | SG-001 | Test | 100ms |"]

/-- The record the table parser produces from `c1TblLines`. -/
def c1TblRec : FsrXls.Fsr :=
  { id := str "FSR-SG-001-DET-1"
    description := str "Detect faults"
    allocated_to := str "ECU"
    asil := str "D"
    safety_goal_id := str "SG-001"
    verification_criteria := str "Test"
    ftti := str "100ms"
    ftype := str "DET"
    operating_modes := str "All modes"
    safety_goal := str "See Linked SG"
    safe_state := []
    emergency_operation := []
    functional_redundancy := [] }

/-- C1 counterexample: the table block and the semantically-equivalent
bold-label block for the same single record parse to records that agree on
every table-backed field but differ (type `'DET'` versus
`'Fault Detection'`, plus the defaulted fields), so the sequences are not
identical. -/
theorem c1_counterexample_roundtrip :
    FsrXls.parseFsrsTableLines c1TblLines ≠
      FsrXls.parseFsrsMarkdownLines [c1goal] c1MdLines ∧
    (FsrXls.parseFsrsTableLines c1TblLines).map (fun r => r.id) =
      (FsrXls.parseFsrsMarkdownLines [c1goal] c1MdLines).map (fun r => r.id) ∧
    (FsrXls.parseFsrsTableLines c1TblLines).map (fun r => r.asil) =
      (FsrXls.parseFsrsMarkdownLines [c1goal] c1MdLines).map (fun r => r.asil) ∧
    (FsrXls.parseFsrsTableLines c1TblLines).map (fun r => r.description) =
      (FsrXls.parseFsrsMarkdownLines [c1goal] c1MdLines).map
        (fun r => r.description) := by decide

/-- C1 amended: the two parsers can never produce identical records for any
id embedding a type code — the table parser stores the raw code (e.g.
`'DET'`) while the markdown parser stores the mapped name (e.g.
`'Fault Detection'`) or `'General'` — although on a semantically-equivalent
pair of blocks they agree on the seven table-backed fields (id, description,
allocation, ASIL, linked goal, verification, FTTI). -/
theorem c1_roundtrip_amended :
    (∀ (tlines mlines : List Str) (goals : List FsrXls.Goal)
        (rT rM : FsrXls.Fsr),
      rT ∈ FsrXls.parseFsrsTableLines tlines →
      rM ∈ FsrXls.parseFsrsMarkdownLines goals mlines →
      containsTypeCode rT.id = true → rT.ftype ≠ rM.ftype) ∧
    (FsrXls.parseFsrsTableLines c1TblLines = [c1TblRec] ∧
     FsrXls.parseFsrsMarkdownLines [c1goal] c1MdLines = [c10rec] ∧
     c1TblRec.id = c10rec.id ∧
     c1TblRec.description = c10rec.description ∧
     c1TblRec.allocated_to = c10rec.allocated_to ∧
     c1TblRec.asil = c10rec.asil ∧
     c1TblRec.safety_goal_id = c10rec.safety_goal_id ∧
     c1TblRec.verification_criteria = c10rec.verification_criteria ∧
     c1TblRec.ftti = c10rec.ftti ∧
     c1TblRec.ftype ≠ c10rec.ftype) := by
  constructor
  · intro tlines mlines goals rT rM hT hM hcode
    have hTt : rT.ftype ∈ FsrXls.typeCodes :=
      table_records_ftype tlines rT hT ▸ tableTypeOf_mem_of_code hcode
    have hMt : rM.ftype ∈ FsrXls.typeMapping.map Prod.snd ++ [str "General"] := by
      rcases md_records_ftype goals mlines rM hM with h' | h'
      · exact List.mem_append.mpr (Or.inl h')
      · exact List.mem_append.mpr (Or.inr (by simp [h']))
    have hdisj : ∀ c ∈ FsrXls.typeCodes,
        ∀ n ∈ FsrXls.typeMapping.map Prod.snd ++ [str "General"], c ≠ n := by
      decide
    exact hdisj rT.ftype hTt rM.ftype hMt
  · decide

/-- Witness for C1 amended at the concrete pair of blocks. -/
theorem c1_roundtrip_amended_witness : c1TblRec.ftype ≠ c10rec.ftype :=
  c1_roundtrip_amended.1 c1TblLines c1MdLines [c1goal] c1TblRec c10rec
    (by decide) (by decide) (by decide)

end OutputFormatter
